import Mathlib

/-!
Verification of the lookahead SAT solver core (sat_lookahead.cpp) against its
natural-language specification.

Shallow embedding conventions:
* A literal is represented by its index: index 2*v is the positive literal of
  variable v, index 2*v+1 its negation (complement flips the low bit), exactly
  the packed representation the source indexes per-literal arrays with.
* C++ vectors are Lean lists in the same order (element 0 first); push_back
  appends at the right end, back is getLast, pop_back is dropLast, shrink n is
  take n.
* Per-literal and per-variable arrays are total functions from Nat, updated
  with Function.update.
* double arithmetic is idealized as exact rational arithmetic over Rat.
* Functions declared only in the solver header (which is not part of the input
  sources) are modelled from the spec and carry a doc comment saying so.
-/

namespace Lookahead

/-- Complement of a literal index: flips the low bit (literal::neg in the
literal encoding the source relies on). -/
def negIdx (l : Nat) : Nat := if l % 2 = 0 then l + 1 else l - 1

/-- Variable of a literal index (literal::var). -/
def varOf (l : Nat) : Nat := l / 2

/-- Binary implication adjacency map: for each literal index, the ordered list
of literals forming the other side of a recorded binary clause (m_binary). -/
def BinMap := Nat → List Nat

/-- The two sequential push_backs of lookahead::add_binary: push l2 onto
m_binary[(~l1).index()], then l1 onto m_binary[(~l2).index()]. -/
def pair_push (B : BinMap) (l1 l2 : Nat) : BinMap :=
  let B1 := Function.update B (negIdx l1) (B (negIdx l1) ++ [l2])
  Function.update B1 (negIdx l2) (B1 (negIdx l2) ++ [l1])

/-- Embeds lookahead::add_binary restricted to its effect on m_binary:
skip tautologies (~l1 == l2), skip when the last element of m_binary[(~l1).index()]
already equals l2, otherwise push l2 onto m_binary[(~l1).index()] and l1 onto
m_binary[(~l2).index()]. -/
def add_binary_map (B : BinMap) (l1 l2 : Nat) : BinMap :=
  if negIdx l1 = l2 then B
  else if (B (negIdx l1)).getLast? = some l2 then B
  else pair_push B l1 l2

/-- Embeds lookahead::del_binary: pop the last literal l of m_binary[idx], then
pop the last element of m_binary[(~l).index()] (which the source asserts equals
~to_literal(idx)). An empty list yields the junk default 0, mirroring the
undefined behavior of back() on an empty vector. -/
def del_binary_map (B : BinMap) (idx : Nat) : BinMap :=
  let lits := B idx
  let l := lits.getLastD 0
  let B1 := Function.update B idx lits.dropLast
  Function.update B1 (negIdx l) ((B1 (negIdx l)).dropLast)

/-- The symmetric-invariant of the binary graph, bounded to the literal indices
below n (the arrays have size 2*num_vars in the source): each occurrence of a
binary clause (a or b) contributes b to adj(~a) and a to adj(~b) with equal
multiplicity. -/
def SymN (n : Nat) (B : BinMap) : Prop :=
  ∀ x, x < n → ∀ y, y < n → (B (negIdx x)).count y = (B (negIdx y)).count x

instance (n : Nat) (B : BinMap) : Decidable (SymN n B) := by
  unfold SymN; infer_instance

end Lookahead

namespace Lookahead

/-- lookahead_mode from the source. -/
inductive Mode
| searching
| lookahead1
| lookahead2
deriving DecidableEq, Repr

/-- lbool: the tri-valued result type used by the model table. -/
inductive LB
| ltrue
| lfalse
| lundef
deriving DecidableEq, Repr

/-- watched: an entry of a ternary/n-ary watch list.  The source's BINARY kind
is unreachable at this layer (the code marks it UNREACHABLE), so it is omitted;
EXT constraints are out of scope per the spec and modelled as inert. -/
inductive Watched
| ternary (l1 l2 : Nat)
| clauseW (blocker : Nat) (off : Nat)
| extW (idx : Nat)
deriving DecidableEq, Repr

/-- Modelled from the spec: per-literal DFS info (rank, parent, min/child,
link, height, vcomp); declared in the solver header which is not among the
input sources.  rank 0 means unvisited; the m_min field doubles as the forest
child pointer (get_child reads it). -/
structure DfsInfo where
  m_rank : Nat := 0
  m_parent : Option Nat := none
  m_min : Option Nat := none
  m_link : Option Nat := none
  m_height : Nat := 0
  m_vcomp : Option Nat := none
deriving DecidableEq, Repr

/-- Modelled from the spec: the configuration record (its defaults live in the
header/params files, not among the input sources; the concrete default values
below are immaterial to every claim settled here). -/
structure Config where
  m_alpha : Rat := 7/2
  m_max_score : Rat := 20
  m_max_hlevel : Nat := 50
  m_level_cand : Nat := 600
  m_min_cutoff : Nat := 30
  m_tc1_limit : Nat := 10000000
  m_delta_rho : Rat := 1/2
  m_dl_max_iterations : Nat := 2
  m_dl_success : Rat := 4/5
deriving DecidableEq, Repr

/-- Modelled from the spec: the sentinel level for permanent assignments
(c_fixed_truth); its exact value is immaterial, it only needs to dominate all
lookahead levels.  We use UINT_MAX - 1. -/
def c_fixed_truth : Nat := 2^32 - 2

/-- UINT_MAX, the settled-rank sentinel of the SCC pass. -/
def uintMax : Nat := 2^32 - 1

/-- The solver state: one field per mutable member of the lookahead class that
the verified claims touch.  C++ vectors are Lean lists (element 0 first),
per-index arrays are total functions, doubles are rationals.  The DRAT proof
sink, statistics counters and the parent-solver handle are omitted: no claim
mentions them. -/
structure St where
  m_num_vars : Nat := 0
  m_config : Config := {}
  m_level : Nat := 2
  m_pfx : Nat := 0
  m_vpfx : Nat → Nat × Nat := fun _ => (0, 0)
  phase : Nat → Bool := fun _ => false
  m_stamp : Nat → Nat := fun _ => 0
  m_trail : List Nat := []
  m_qhead : Nat := 0
  m_freevars : List Nat := []
  m_binary : BinMap := fun _ => []
  m_binary_trail : List Nat := []
  m_watches : Nat → List Watched := fun _ => []
  m_full_watches : Nat → List Nat := fun _ => []
  m_clauses : List Nat := []
  m_cls : Nat → List Nat := fun _ => []
  m_next_off : Nat := 0
  m_retired_clauses : List Nat := []
  m_retired_ternary : List (Nat × Nat × Nat) := []
  m_trail_lim : List Nat := []
  m_binary_trail_lim : List Nat := []
  m_qhead_lim : List Nat := []
  m_num_tc1_lim : List Nat := []
  m_retired_clause_lim : List Nat := []
  m_retired_ternary_lim : List Nat := []
  m_num_tc1 : Nat := 0
  m_assumptions : List Nat := []
  m_inconsistent : Bool := false
  m_search_mode : Mode := Mode.searching
  m_wstack : List Nat := []
  m_weighted_new_binaries : Rat := 0
  m_H : List (Nat → Rat) := []
  m_heur : Nat := 0
  m_rating : Nat → Rat := fun _ => 0
  m_bstamp : Nat → Nat := fun _ => 0
  m_bstamp_id : Nat := 0
  m_istamp_id : Nat := 0
  m_dl_la : Nat → Nat := fun _ => 0
  m_wnb : Nat → Rat := fun _ => 0
  m_dfs : Nat → DfsInfo := fun _ => {}
  m_arcs : Nat → List Nat := fun _ => []
  m_candidates : List (Nat × Rat) := []
  m_lookahead : List (Nat × Nat) := []
  m_rank_counter : Nat := 0
  m_active : Option Nat := none
  m_settled : Option Nat := none
  m_root_child : Option Nat := none
  m_delta_trigger : Rat := 0
  m_model : List LB := []
  m_select_vars : List Nat := []
  m_rand_fn : Nat → Nat := fun _ => 0
  m_rand_count : Nat := 0

/-- Modelled from the spec: a variable's assignment is a truth value plus a
level stamp, and a literal is fixed at level L iff its stamp is at least L
(these accessors live in the header, not among the input sources). -/
def is_fixed (s : St) (l : Nat) : Bool := decide (s.m_level ≤ s.m_stamp (varOf l))

/-- Modelled from the spec: undef = not fixed at the current level. -/
def is_undef (s : St) (l : Nat) : Bool := ! is_fixed s l

/-- Modelled from the spec: true = fixed with matching polarity (the stored
phase records whether the positive literal holds). -/
def is_true (s : St) (l : Nat) : Bool :=
  is_fixed s l && (s.phase (varOf l) == decide (l % 2 = 0))

/-- Modelled from the spec: false = fixed with opposite polarity. -/
def is_false (s : St) (l : Nat) : Bool :=
  is_fixed s l && !(s.phase (varOf l) == decide (l % 2 = 0))

/-- Modelled from the spec: fixed at an explicit level L iff stamp >= L. -/
def is_fixed_at (s : St) (l lvl : Nat) : Bool := decide (lvl ≤ s.m_stamp (varOf l))

/-- Modelled from the spec: record the literal as true at the current level. -/
def set_true (s : St) (l : Nat) : St :=
  { s with m_stamp := Function.update s.m_stamp (varOf l) s.m_level,
           phase := Function.update s.phase (varOf l) (decide (l % 2 = 0)) }

/-- Modelled from the spec: release the variable (stamp back to 0). -/
def set_undef (s : St) (l : Nat) : St :=
  { s with m_stamp := Function.update s.m_stamp (varOf l) 0 }

/-- Modelled from the header's one-liner: raise the inconsistent flag. -/
def set_conflict (s : St) : St := { s with m_inconsistent := true }

/-- Modelled from the spec: current search-tree depth = number of open scopes. -/
def scope_lvl (s : St) : Nat := s.m_trail_lim.length

/-- Free-variable set insertion (m_freevars is a set; modelled as a
duplicate-free list, iteration order only feeds heuristics). -/
def fv_insert (xs : List Nat) (v : Nat) : List Nat := if v ∈ xs then xs else xs ++ [v]

/-- Embeds lookahead::add_binary (the DRAT emission and the statistics counter
are omitted): skip tautologies and duplicated-back entries, otherwise push the
symmetric pair and record (~l1).index() on the binary trail. -/
def add_binary (s : St) (l1 l2 : Nat) : St :=
  if negIdx l1 = l2 then s
  else if (s.m_binary (negIdx l1)).getLast? = some l2 then s
  else { s with m_binary := pair_push s.m_binary l1 l2,
                m_binary_trail := s.m_binary_trail ++ [negIdx l1] }

/-- Embeds lookahead::del_binary (on the state). -/
def del_binary (s : St) (idx : Nat) : St :=
  { s with m_binary := del_binary_map s.m_binary idx }

/-- Embeds lookahead::inc_bstamp: increment the 32-bit epoch; on wrap to 0,
increment again and zero the per-literal stamp table. -/
def inc_bstamp (s : St) : St :=
  let id1 := (s.m_bstamp_id + 1) % 2^32
  if id1 = 0 then
    { s with m_bstamp_id := (id1 + 1) % 2^32, m_bstamp := fun _ => 0 }
  else { s with m_bstamp_id := id1 }

/-- Embeds lookahead::inc_istamp: same pattern for the double-lookahead epoch,
zeroing each literal's m_double_lookahead on wrap. -/
def inc_istamp (s : St) : St :=
  let id1 := (s.m_istamp_id + 1) % 2^32
  if id1 = 0 then
    { s with m_istamp_id := (id1 + 1) % 2^32, m_dl_la := fun _ => 0 }
  else { s with m_istamp_id := id1 }

/-- Modelled from the spec: stamp one literal with the current epoch. -/
def set_bstamp (s : St) (l : Nat) : St :=
  { s with m_bstamp := Function.update s.m_bstamp l s.m_bstamp_id }

/-- Modelled from the spec: a literal is stamped iff its stamp equals the
current epoch. -/
def is_stamped (s : St) (l : Nat) : Bool := s.m_bstamp l == s.m_bstamp_id

/-- Embeds lookahead::set_bstamps: fresh epoch, stamp l and all binary
consequences of l. -/
def set_bstamps (s : St) (l : Nat) : St :=
  let s1 := set_bstamp (inc_bstamp s) l
  (s1.m_binary l).foldl set_bstamp s1

/-- Embeds lookahead::flip_prefix: at depth below 64, set bit d of the prefix
and clear the bits above it (mask | (prefix & (mask-1)) written
arithmetically, the mask bit being above the retained low bits). -/
def flip_pfx (s : St) : St :=
  if s.m_trail_lim.length < 64 then
    { s with m_pfx := 2 ^ s.m_trail_lim.length + s.m_pfx % 2 ^ s.m_trail_lim.length }
  else s

/-- Embeds lookahead::update_prefix ((p & mask) with mask = 2^min(31,l) - 1 is
written as a remainder; static_cast<unsigned> is a remainder by 2^32). -/
def update_pfx (s : St) (l : Nat) : St :=
  let x := varOf l
  let p := (s.m_vpfx x).1
  let pl := (s.m_vpfx x).2
  if s.m_trail_lim.length ≤ pl ∨ p % 2 ^ min 31 pl ≠ s.m_pfx % 2 ^ min 31 pl then
    { s with m_vpfx := Function.update s.m_vpfx x (s.m_pfx % 2^32, s.m_trail_lim.length) }
  else s

/-- Embeds lookahead::active_prefix. -/
def active_pfx (s : St) (x : Nat) : Bool :=
  let lvl := s.m_trail_lim.length
  let p := (s.m_vpfx x).1
  let l := (s.m_vpfx x).2
  if lvl < l then false
  else if l = lvl ∨ 31 ≤ l then decide (s.m_pfx = p)
  else decide (s.m_pfx % 2 ^ min l 31 = p % 2 ^ min l 31)

/-- Embeds lookahead::assign (statistics and DRAT validation omitted): set an
undef literal true, append it to the trail and, in searching mode, remove its
variable from the free set; a false literal raises a conflict. -/
def assign (s : St) (l : Nat) : St :=
  if is_undef s l then
    let s1 := set_true s l
    let s2 := { s1 with m_trail := s1.m_trail ++ [l] }
    if s2.m_search_mode = Mode.searching then
      { s2 with m_freevars := s2.m_freevars.erase (varOf l) }
    else s2
  else if is_false s l then set_conflict s
  else s

/-- Embeds lookahead::propagated: assign, and in lookahead1 mode record the
literal on the windfall stack. -/
def propagated (s : St) (l : Nat) : St :=
  let s1 := assign s l
  match s1.m_search_mode with
  | Mode.searching => s1
  | Mode.lookahead1 => { s1 with m_wstack := s1.m_wstack ++ [l] }
  | Mode.lookahead2 => s1

/-- The loop of lookahead::add_tc1 over m_binary[v.index()]: the size sz is the
snapshot taken before the loop, entries are re-read from the current state (the
list can only grow at indices at or beyond sz). -/
def add_tc1_loop (s : St) (u v : Nat) (i sz gas : Nat) : Bool × St :=
  match gas with
  | 0 => (true, s)
  | gas + 1 =>
    if i < sz then
      let w := (s.m_binary v).getD i 0
      if ¬ is_fixed s w then
        if is_stamped s (negIdx w) then (false, assign s u)
        else if s.m_num_tc1 < s.m_config.m_tc1_limit then
          let s1 := { s with m_num_tc1 := s.m_num_tc1 + 1 }
          add_tc1_loop (add_binary s1 u w) u v (i+1) sz gas
        else add_tc1_loop s u v (i+1) sz gas
      else add_tc1_loop s u v (i+1) sz gas
    else (true, s)

/-- Embeds lookahead::add_tc1: one-step transitive closure of (u or v); returns
false when a unit was learned. -/
def add_tc1 (s : St) (u v : Nat) : Bool × St :=
  add_tc1_loop s u v 0 (s.m_binary v).length (s.m_binary v).length

/-- Embeds lookahead::try_add_binary (the verbose diagnostic is omitted). -/
def try_add_binary (s : St) (u v : Nat) : St :=
  let s0 := set_bstamps s (negIdx u)
  if is_stamped s0 (negIdx v) then assign s0 u
  else if ¬ is_stamped s0 v then
    match add_tc1 s0 u v with
    | (true, s1) =>
      let s2 := set_bstamps s1 (negIdx v)
      if is_stamped s2 (negIdx u) then assign s2 v
      else
        match add_tc1 s2 v u with
        | (true, s3) => add_binary (update_pfx (update_pfx s3 u) v) u v
        | (false, s3) => s3
    | (false, s1) => s1
  else s0

/-- Modelled after the header helper erase_ternary_watch: remove the first
ternary watch carrying exactly (l1, l2), preserving order. -/
def erase_ternary_watch (wl : List Watched) (l1 l2 : Nat) : List Watched :=
  wl.eraseP (fun w => w == Watched.ternary l1 l2)

/-- Modelled after the header helper erase_clause_watch: remove the first
clause watch carrying the given offset, preserving order. -/
def erase_clause_watch (wl : List Watched) (off : Nat) : List Watched :=
  wl.eraseP (fun w => match w with | Watched.clauseW _ o => o == off | _ => false)

/-- Embeds lookahead::attach_ternary(l1,l2,l3) (statistics omitted). -/
def attach_ternary3 (s : St) (l1 l2 l3 : Nat) : St :=
  let s1 := { s with m_watches := Function.update s.m_watches (negIdx l1)
                       (s.m_watches (negIdx l1) ++ [Watched.ternary l2 l3]) }
  let s2 := { s1 with m_watches := Function.update s1.m_watches (negIdx l2)
                       (s1.m_watches (negIdx l2) ++ [Watched.ternary l1 l3]) }
  { s2 with m_watches := Function.update s2.m_watches (negIdx l3)
                       (s2.m_watches (negIdx l3) ++ [Watched.ternary l1 l2]) }

/-- Embeds lookahead::attach_clause: size-3 clauses get ternary watches, larger
clauses two clause watches with blocking literal c[size >> 2]. -/
def attach_clause (s : St) (off : Nat) : St :=
  let c := s.m_cls off
  if c.length = 3 then attach_ternary3 s (c.getD 0 0) (c.getD 1 0) (c.getD 2 0)
  else
    let block := c.getD (c.length / 4) 0
    let s1 := { s with m_watches := Function.update s.m_watches (negIdx (c.getD 0 0))
                        (s.m_watches (negIdx (c.getD 0 0)) ++ [Watched.clauseW block off]) }
    { s1 with m_watches := Function.update s1.m_watches (negIdx (c.getD 1 0))
                        (s1.m_watches (negIdx (c.getD 1 0)) ++ [Watched.clauseW block off]) }

/-- Embeds lookahead::detach_clause: retire the clause and remove both its
clause watches. -/
def detach_clause (s : St) (off : Nat) : St :=
  let c := s.m_cls off
  let s1 := { s with m_retired_clauses := s.m_retired_clauses ++ [off] }
  let s2 := { s1 with m_watches := Function.update s1.m_watches (negIdx (c.getD 0 0))
                        (erase_clause_watch (s1.m_watches (negIdx (c.getD 0 0))) off) }
  { s2 with m_watches := Function.update s2.m_watches (negIdx (c.getD 1 0))
                        (erase_clause_watch (s2.m_watches (negIdx (c.getD 1 0))) off) }

/-- Embeds lookahead::detach_ternary: retire the triple and erase the two
watches not being compacted by the caller (the first is erased implicitly). -/
def detach_ternary (s : St) (l1 l2 l3 : Nat) : St :=
  let s1 := { s with m_retired_ternary := s.m_retired_ternary ++ [(l1, l2, l3)] }
  let s2 := { s1 with m_watches := Function.update s1.m_watches (negIdx l2)
                        (erase_ternary_watch (s1.m_watches (negIdx l2)) l1 l3) }
  { s2 with m_watches := Function.update s2.m_watches (negIdx l3)
                        (erase_ternary_watch (s2.m_watches (negIdx l3)) l1 l2) }

/-- The H-score array currently selected by m_heur (the source stores a
pointer into m_H). -/
def heur (s : St) (l : Nat) : Rat := (s.m_H.getD s.m_heur (fun _ => 0)) l

/-- The loop body of lookahead::propagate_binary: assign each consequence while
no conflict arose (the list is a snapshot; assign does not change m_binary). -/
def propagate_binary_loop (s : St) (lits : List Nat) : St :=
  match lits with
  | [] => s
  | w :: rest => if s.m_inconsistent then s else propagate_binary_loop (assign s w) rest

/-- Embeds lookahead::propagate_binary. -/
def propagate_binary (s : St) (l : Nat) : St :=
  propagate_binary_loop s (s.m_binary l)

/-- First index at or beyond j holding a literal that is not false (the
replacement-watch scan of the n-ary clause case). -/
def find_non_false_go (s : St) (c : List Nat) (j gas : Nat) : Option Nat :=
  match gas with
  | 0 => none
  | gas + 1 =>
    if j < c.length then
      if ¬ is_false s (c.getD j 0) then some j else find_non_false_go s c (j+1) gas
    else none

/-- First index at or beyond j holding a literal that is not false (the
replacement-watch scan of the n-ary clause case). -/
def find_non_false (s : St) (c : List Nat) (j : Nat) : Option Nat :=
  find_non_false_go s c j c.length

/-- Whether some literal at index 2 or beyond is true (the rescan of the
reduced-but-not-binary case). -/
def has_true_from2 (s : St) (c : List Nat) : Bool :=
  (c.drop 2).any (fun li => is_true s li)

/-- One ternary watch entry of lookahead::propagate_clauses; returns the state
and whether the entry is kept in the compacted list. -/
def pc_ternary (s : St) (l l1 l2 : Nat) : St × Bool :=
  if is_fixed s l1 then
    if is_false s l1 then
      if is_undef s l2 then (propagated s l2, true)
      else if is_false s l2 then (set_conflict s, true)
      else (s, true)
    else (s, true)
  else if is_fixed s l2 then
    if is_false s l2 then (propagated s l1, true) else (s, true)
  else
    match s.m_search_mode with
    | Mode.searching => (try_add_binary (detach_ternary s (negIdx l) l1 l2) l1 l2, false)
    | Mode.lookahead1 =>
        ({ s with m_weighted_new_binaries :=
             s.m_weighted_new_binaries + heur s l1 * heur s l2 }, true)
    | Mode.lookahead2 => (s, true)

/-- One clause watch entry of lookahead::propagate_clauses; returns the state
and the kept entry, if any (none when the watch moved or the clause was
detached). -/
def pc_clause (s : St) (l blocker off : Nat) : St × Option Watched :=
  if is_true s blocker then (s, some (Watched.clauseW blocker off)) else
  let c0 := s.m_cls off
  let c := if c0.getD 0 0 = negIdx l then (c0.set 0 (c0.getD 1 0)).set 1 (c0.getD 0 0) else c0
  let s := { s with m_cls := Function.update s.m_cls off c }
  if is_true s (c.getD 0 0) then (s, some (Watched.clauseW (c.getD 0 0) off)) else
  match find_non_false s c 2 with
  | some j =>
    let c1 := (c.set 1 (c.getD j 0)).set j (negIdx l)
    let s := { s with m_cls := Function.update s.m_cls off c1 }
    let wl := s.m_watches (negIdx (c1.getD 1 0)) ++ [Watched.clauseW (c1.getD 0 0) off]
    let s := { s with m_watches := Function.update s.m_watches (negIdx (c1.getD 1 0)) wl }
    if (find_non_false s c1 (j+1)).isNone then
      if is_undef s (c1.getD 1 0) ∧ is_undef s (c1.getD 0 0) then
        match s.m_search_mode with
        | Mode.searching => (try_add_binary (detach_clause s off) (c1.getD 0 0) (c1.getD 1 0), none)
        | Mode.lookahead1 =>
            ({ s with m_weighted_new_binaries :=
                 s.m_weighted_new_binaries + heur s (c1.getD 0 0) * heur s (c1.getD 1 0) }, none)
        | Mode.lookahead2 => (s, none)
      else (s, none)
    else
      if s.m_search_mode = Mode.lookahead1 ∧ s.m_weighted_new_binaries = 0 then
        if ¬ has_true_from2 s c1 then
          ({ s with m_weighted_new_binaries := (1:Rat)/1000 }, none)
        else (s, none)
      else (s, none)
  | none =>
    if is_false s (c.getD 0 0) then (set_conflict s, some (Watched.clauseW blocker off))
    else (propagated s (c.getD 0 0), some (Watched.clauseW blocker off))

/-- The compaction loop of lookahead::propagate_clauses: entries still pending
are processed unless a conflict stops the loop, in which case the rest is
copied verbatim; the compacted list is written back at the end. -/
def propagate_clauses_loop (s : St) (l : Nat) (pending kept : List Watched) : St :=
  match pending with
  | [] => { s with m_watches := Function.update s.m_watches l kept }
  | w :: rest =>
    if s.m_inconsistent then
      { s with m_watches := Function.update s.m_watches l (kept ++ w :: rest) }
    else
      match w with
      | Watched.ternary l1 l2 =>
        let (s1, keep) := pc_ternary s l l1 l2
        propagate_clauses_loop s1 l rest (if keep then kept ++ [w] else kept)
      | Watched.clauseW blocker off =>
        let (s1, ko) := pc_clause s l blocker off
        propagate_clauses_loop s1 l rest (match ko with | some w1 => kept ++ [w1] | none => kept)
      | Watched.extW idx =>
        propagate_clauses_loop s l rest (kept ++ [Watched.extW idx])

/-- Embeds lookahead::propagate_clauses (ternary/n-ary/EXT watch processing of
one true literal l). -/
def propagate_clauses (s : St) (l : Nat) : St :=
  if s.m_inconsistent then s
  else propagate_clauses_loop s l (s.m_watches l) []

/-- The binary pass of lookahead::propagate: positions i..sz-1 of the trail,
stopping on conflict; the trail may grow but positions below sz are stable. -/
def propagate_pass1 (s : St) (i sz gas : Nat) : St :=
  match gas with
  | 0 => s
  | gas + 1 =>
    if i < sz then
      if s.m_inconsistent then s
      else propagate_pass1 (propagate_binary s (s.m_trail.getD i 0)) (i+1) sz gas
    else s

/-- The clause pass of lookahead::propagate over the same window. -/
def propagate_pass2 (s : St) (i sz gas : Nat) : St :=
  match gas with
  | 0 => s
  | gas + 1 =>
    if i < sz then
      if s.m_inconsistent then s
      else propagate_pass2 (propagate_clauses s (s.m_trail.getD i 0)) (i+1) sz gas
    else s

/-- Embeds lookahead::propagate: repeat both passes over the unpropagated trail
window until fixpoint or conflict.  fuel bounds the source's while loop; every
evaluation below supplies enough of it. -/
def propagate (fuel : Nat) (s : St) : St :=
  match fuel with
  | 0 => s
  | fuel + 1 =>
    if ¬ s.m_inconsistent ∧ s.m_qhead < s.m_trail.length then
      let i := s.m_qhead
      let sz := s.m_trail.length
      let s1 := propagate_pass1 s i sz sz
      let s2 := propagate_pass2 s1 i sz sz
      propagate fuel { s2 with m_qhead := sz }
    else s

/-- Embeds lookahead::push: record all six scope marks, enter the scoped level,
push the negated assumption, assign and propagate, and (scoped_level
destructor) restore the previous level on exit. -/
def push (fuel : Nat) (s : St) (lit level : Nat) : St :=
  let s := { s with
    m_binary_trail_lim := s.m_binary_trail_lim ++ [s.m_binary_trail.length],
    m_trail_lim := s.m_trail_lim ++ [s.m_trail.length],
    m_num_tc1_lim := s.m_num_tc1_lim ++ [s.m_num_tc1],
    m_retired_clause_lim := s.m_retired_clause_lim ++ [s.m_retired_clauses.length],
    m_retired_ternary_lim := s.m_retired_ternary_lim ++ [s.m_retired_ternary.length],
    m_qhead_lim := s.m_qhead_lim ++ [s.m_qhead] }
  let old_level := s.m_level
  let s := { s with m_level := level }
  let s := { s with m_assumptions := s.m_assumptions ++ [negIdx lit] }
  let s := assign s lit
  let s := propagate fuel s
  { s with m_level := old_level }

/-- The empty-pop detection of lookahead::pop: the source only prints a
diagnostic ("empty pop") when this holds and then continues executing. -/
def pop_warns (s : St) : Bool := s.m_assumptions.isEmpty

/-- The per-literal trail undo of lookahead::pop (set_undef and free-variable
re-insertion). -/
def pop_undo_trail (t : St) (l : Nat) : St :=
  let t1 := set_undef t l
  { t1 with m_freevars := fv_insert t1.m_freevars (varOf l) }

/-- Re-attachment of one retired ternary during pop. -/
def reattach_ternary (t : St) (tr : Nat × Nat × Nat) : St :=
  attach_ternary3 t tr.1 tr.2.1 tr.2.2

/-- Embeds lookahead::pop: drop the assumption, clear the conflict flag, then
restore in source order: trail (set_undef + freevar re-insertion, iterated from
the top down), tc1 counter, retired clauses (re-attach), retired ternaries,
dynamically added binaries (deleted top-down), and qhead.  back() on an empty
scope stack is modelled by the junk default 0. -/
def pop (s : St) : St :=
  let s := { s with m_assumptions := s.m_assumptions.dropLast }
  let s := { s with m_inconsistent := false }
  let old_tr := s.m_trail_lim.getLastD 0
  let s := (s.m_trail.drop old_tr).reverse.foldl pop_undo_trail s
  let s := { s with m_trail := s.m_trail.take old_tr, m_trail_lim := s.m_trail_lim.dropLast }
  let s := { s with m_num_tc1 := s.m_num_tc1_lim.getLastD 0,
                    m_num_tc1_lim := s.m_num_tc1_lim.dropLast }
  let old_rc := s.m_retired_clause_lim.getLastD 0
  let s := (s.m_retired_clauses.drop old_rc).foldl attach_clause s
  let s := { s with m_retired_clauses := s.m_retired_clauses.take old_rc,
                    m_retired_clause_lim := s.m_retired_clause_lim.dropLast }
  let old_rt := s.m_retired_ternary_lim.getLastD 0
  let s := (s.m_retired_ternary.drop old_rt).foldl reattach_ternary s
  let s := { s with m_retired_ternary := s.m_retired_ternary.take old_rt,
                    m_retired_ternary_lim := s.m_retired_ternary_lim.dropLast }
  let old_bt := s.m_binary_trail_lim.getLastD 0
  let s := { s with m_binary :=
      (s.m_binary_trail.drop old_bt).foldr (fun idx B => del_binary_map B idx) s.m_binary }
  let s := { s with m_binary_trail := s.m_binary_trail.take old_bt,
                    m_binary_trail_lim := s.m_binary_trail_lim.dropLast }
  { s with m_qhead := s.m_qhead_lim.getLastD 0, m_qhead_lim := s.m_qhead_lim.dropLast }

/-- Embeds lookahead::push_lookahead1: switch to lookahead1 mode, assign and
propagate at the scoped level. -/
def push_lookahead1 (fuel : Nat) (s : St) (lit level : Nat) : St :=
  let s := { s with m_search_mode := Mode.lookahead1 }
  let old_level := s.m_level
  let s := { s with m_level := level }
  let s := assign s lit
  let s := propagate fuel s
  { s with m_level := old_level }

/-- Embeds lookahead::push_lookahead2: probe lit in lookahead2 mode at the
scoped level; report whether it was unsat and clear the conflict. -/
def push_lookahead2 (fuel : Nat) (s : St) (lit level : Nat) : Bool × St :=
  let old_level := s.m_level
  let s := { s with m_level := level, m_search_mode := Mode.lookahead2 }
  let s := assign s lit
  let s := propagate fuel s
  let unsat := s.m_inconsistent
  (unsat, { s with m_search_mode := Mode.lookahead1, m_inconsistent := false,
                   m_level := old_level })

/-- Embeds lookahead::pop_lookahead1: leave lookahead1 mode clearing the
conflict flag; when the probe succeeded turn every windfall literal w on the
wstack into a permanent binary (~lit or w); always empty the wstack
(statistics omitted). -/
def pop_lookahead1 (s : St) (lit : Nat) : St :=
  let unsat := s.m_inconsistent
  let s1 := { s with m_inconsistent := false, m_search_mode := Mode.searching }
  let s2 := if unsat then s1
            else s1.m_wstack.foldl (fun t l2 => add_binary t (negIdx lit) l2) s1
  { s2 with m_wstack := [] }

/-- Embeds lookahead::init_wnb: open a wnb frame on the qhead and trail scope
stacks only. -/
def init_wnb (s : St) : St :=
  { s with m_qhead_lim := s.m_qhead_lim ++ [s.m_qhead],
           m_trail_lim := s.m_trail_lim ++ [s.m_trail.length] }

/-- Embeds lookahead::reset_wnb (the nullary overload): close the wnb frame,
un-assigning the trail tail. -/
def reset_wnb_all (s : St) : St :=
  let s := { s with m_qhead := s.m_qhead_lim.getLastD 0 }
  let old_tr := s.m_trail_lim.getLastD 0
  let s := (s.m_trail.drop old_tr).foldl set_undef s
  { s with m_trail := s.m_trail.take old_tr,
           m_trail_lim := s.m_trail_lim.dropLast,
           m_qhead_lim := s.m_qhead_lim.dropLast }

/-- The wnb score of a literal (m_lits[l.index()].m_wnb behind the header's
get_wnb). -/
def get_wnb (s : St) (l : Nat) : Rat := s.m_wnb l

/-- Modelled from the header accessors set_wnb / inc_wnb. -/
def set_wnb (s : St) (l : Nat) (d : Rat) : St :=
  { s with m_wnb := Function.update s.m_wnb l d }

/-- Modelled from the header accessor inc_wnb. -/
def inc_wnb (s : St) (l : Nat) (d : Rat) : St :=
  { s with m_wnb := Function.update s.m_wnb l (s.m_wnb l + d) }

/-- The SCC parent of a literal (header accessor get_parent over m_dfs). -/
def get_parent (s : St) (l : Nat) : Option Nat := (s.m_dfs l).m_parent

/-- Embeds lookahead::reset_wnb(literal): zero the running weighted-new-binary
count and seed wnb(l) from its parent (0 at a root). -/
def reset_wnb_lit (s : St) (l : Nat) : St :=
  let s := { s with m_weighted_new_binaries := 0 }
  match get_parent s l with
  | none => set_wnb s l 0
  | some p => set_wnb s l (get_wnb s p)

/-- Embeds lookahead::l_score for one literal: the binary term sums h over
undef binary neighbours, the ternary/clause term sums products of the two
other literals' scores (the clause case picks c[1],c[2] or c[0],c[2] depending
on which watched position is ~l), capped at max_score.  The factor argument is
passed but unused, exactly as in the source. -/
def l_score (s : St) (l : Nat) (h : Nat → Rat) (_factor sqfactor afactor : Rat) : Rat :=
  let sum := (s.m_binary l).foldl
      (fun acc w => if is_undef s w then acc + h w else acc) 0
  let tsum := (s.m_watches l).foldl
      (fun acc w =>
        match w with
        | Watched.ternary l1 l2 => acc + h l1 * h l2
        | Watched.clauseW _ off =>
          let c := s.m_cls off
          if c.getD 0 0 = negIdx l then acc + h (c.getD 1 0) * h (c.getD 2 0)
          else acc + h (c.getD 0 0) * h (c.getD 2 0)
        | Watched.extW _ => acc) 0
  min s.m_config.m_max_score ((1:Rat)/10 + afactor * sum + sqfactor * tsum)

/-- The normalisation denominator of lookahead::h_scores: the sum of current
scores over both polarities of the free variables, replaced by 0.0001 when it
is zero. -/
def h_scores_denom (s : St) (h : Nat → Rat) : Rat :=
  let sum := s.m_freevars.foldl (fun acc v => acc + h (2*v) + h (negIdx (2*v))) 0
  if sum = 0 then (1:Rat)/10000 else sum

/-- Embeds lookahead::h_scores: read array m_H[hi], write array m_H[hpi] and
the ratings (the two arrays are distinct at every call site). -/
def h_scores (s : St) (hi hpi : Nat) : St :=
  let h := s.m_H.getD hi (fun _ => 0)
  let sum := h_scores_denom s h
  let factor := 2 * (s.m_freevars.length : Rat) / sum
  let sqfactor := factor * factor
  let afactor := factor * s.m_config.m_alpha
  s.m_freevars.foldl
    (fun t v =>
      let pos := l_score t (2*v) h factor sqfactor afactor
      let neg := l_score t (negIdx (2*v)) h factor sqfactor afactor
      let arr := t.m_H.getD hpi (fun _ => 0)
      let arr := Function.update (Function.update arr (2*v) pos) (negIdx (2*v)) neg
      { t with m_H := t.m_H.set hpi arr,
               m_rating := Function.update t.m_rating v (pos * neg) }) s

/-- Embeds lookahead::ensure_H: append zero arrays until m_H has more than
level entries. -/
def ensure_H_go (s : St) (level gas : Nat) : St :=
  match gas with
  | 0 => s
  | gas + 1 =>
    if s.m_H.length ≤ level then ensure_H_go { s with m_H := s.m_H ++ [fun _ => 0] } level gas
    else s

/-- Embeds lookahead::ensure_H: append zero arrays until m_H has more than
level entries. -/
def ensure_H (s : St) (level : Nat) : St := ensure_H_go s level (level + 1)

/-- Embeds lookahead::init_pre_selection; the source's two-by-two loop of
h_scores calls at level <= 1 is unrolled (the indices are h_scores(m_H[i+1],
m_H[(i+2)%3]) for j,i in 0..1). -/
def init_pre_selection (s : St) (level : Nat) : St :=
  let max_level := s.m_config.m_max_hlevel
  if level ≤ 1 then
    let s := ensure_H s 2
    let s := h_scores s 0 1
    let s := h_scores s 1 2
    let s := h_scores s 2 0
    let s := h_scores s 1 2
    let s := h_scores s 2 0
    { s with m_heur := 1 }
  else if level < max_level then
    let s := ensure_H s level
    let s := h_scores s (level-1) level
    { s with m_heur := level }
  else
    let s := ensure_H s max_level
    let s := h_scores s (max_level-1) max_level
    { s with m_heur := max_level }

/-- Embeds lookahead::is_sat: every binary consequence of a free variable in
either polarity is true, and every clause has a true literal. -/
def is_sat (s : St) : Bool :=
  s.m_freevars.all
    (fun v => (s.m_binary (2*v)).all (is_true s) && (s.m_binary (2*v+1)).all (is_true s)) &&
  s.m_clauses.all (fun off => (s.m_cls off).any (is_true s))

/-- Embeds lookahead::is_unsat: some clause has all literals false. -/
def is_unsat (s : St) : Bool :=
  s.m_clauses.any (fun off => (s.m_cls off).all (is_false s))

/-- Embeds lookahead::init_candidates: reset and refill the candidate list from
the free variables, restricted to m_select_lookahead_vars when that is
non-empty, else to the active prefix unless newbies; returns the rating sum. -/
def init_candidates (s : St) (_level : Nat) (newbies : Bool) : Rat × St :=
  let s0 := { s with m_candidates := [] }
  s.m_freevars.foldl
    (fun (p : Rat × St) x =>
      let (acc, t) := p
      if ¬ s.m_select_vars.isEmpty then
        if x ∈ s.m_select_vars then
          (acc + s.m_rating x, { t with m_candidates := t.m_candidates ++ [(x, s.m_rating x)] })
        else (acc, t)
      else if newbies || active_pfx s x then
        (acc + s.m_rating x, { t with m_candidates := t.m_candidates ++ [(x, s.m_rating x)] })
      else (acc, t))
    ((0 : Rat), s0)

/-- Embeds lookahead::sift_up: walk down the max-heap from j, pulling up the
larger child while it beats the sifted candidate. -/
def sift_up_loop (cands : List (Nat × Rat)) (c : Nat × Rat) (i k : Nat) (fuel : Nat) :
    List (Nat × Rat) × Nat :=
  match fuel with
  | 0 => (cands, i)
  | fuel + 1 =>
    if k < cands.length then
      let k := if k + 1 < cands.length ∧ (cands.getD k (0,0)).2 < (cands.getD (k+1) (0,0)).2
               then k + 1 else k
      if c.2 ≤ (cands.getD k (0,0)).2 then (cands, i)
      else sift_up_loop (cands.set i (cands.getD k (0,0))) c k (2*k+1) fuel
    else (cands, i)

/-- Embeds lookahead::sift_up. -/
def sift_up (cands : List (Nat × Rat)) (j : Nat) : List (Nat × Rat) :=
  let c := cands.getD j (0,0)
  let (cands, i) := sift_up_loop cands c j (2*j+1) (cands.length + 1)
  if j < i then cands.set i c else cands

/-- The inner pruning pass of lookahead::select: candidates below the running
mean are replaced by the current back and the list shrinks; i is re-examined
after a swap (the source decrements i). -/
def prune_pass (cands : List (Nat × Rat)) (mean : Rat) (max2 : Nat)
    (i : Nat) (sum : Rat) (progress : Bool) (fuel : Nat) :
    List (Nat × Rat) × Rat × Bool :=
  match fuel with
  | 0 => (cands, sum, progress)
  | fuel + 1 =>
    if i < cands.length ∧ max2 ≤ cands.length then
      let c := cands.getD i (0,0)
      if mean ≤ c.2 then
        prune_pass cands mean max2 (i+1) (sum + c.2) progress fuel
      else
        let cands := (cands.set i (cands.getD (cands.length - 1) (0,0))).dropLast
        prune_pass cands mean max2 i sum true fuel
    else (cands, sum, progress)

/-- The outer pruning loop of lookahead::select. -/
def prune_loop (cands : List (Nat × Rat)) (sum : Rat) (max_num : Nat) (fuel : Nat) :
    List (Nat × Rat) :=
  match fuel with
  | 0 => cands
  | fuel + 1 =>
    if max_num * 2 ≤ cands.length then
      let mean := sum / ((cands.length : Rat) + 1/10000)
      let (cands1, sum1, progress) := prune_pass cands mean (max_num * 2) 0 0 false (cands.length * 2 + 1)
      if progress then prune_loop cands1 sum1 max_num fuel else cands1
    else cands

/-- The heapify phase of lookahead::select: sift_up from j = size/2 - 1 down
to 0. -/
def heapify_down (cands : List (Nat × Rat)) (j : Nat) : List (Nat × Rat) :=
  match j with
  | 0 => cands
  | j + 1 => heapify_down (sift_up cands j) j

/-- The extraction phase of lookahead::select: overwrite the root with the
back, pop, and re-sift until max_num candidates remain. -/
def heap_select_loop (cands : List (Nat × Rat)) (max_num : Nat) (fuel : Nat) :
    List (Nat × Rat) :=
  match fuel with
  | 0 => cands
  | fuel + 1 =>
    let cands := (cands.set 0 (cands.getD (cands.length - 1) (0,0))).dropLast
    if cands.length = max_num then cands
    else heap_select_loop (sift_up cands 0) max_num fuel

/-- Embeds lookahead::select: pre-selection scores, candidate collection with
the newbies retry (the source's retry loop is unrolled once: a second empty
round with newbies=true repeats identically, which the source would spin on),
mean-pruning and heap selection.  Returns false on the is_sat exit. -/
def select (s : St) (level : Nat) : Bool × St :=
  let s := init_pre_selection s level
  let level_cand := max s.m_config.m_level_cand (s.m_freevars.length / 50)
  let max_num_cand := if level = 0 then s.m_freevars.length else level_cand / level
  let max_num_cand := max s.m_config.m_min_cutoff max_num_cand
  let (sum, s1) := init_candidates s level false
  let found :=
    if ¬ s1.m_candidates.isEmpty then some (sum, s1)
    else if is_sat s1 then none
    else
      let (sum2, s2) := init_candidates s1 level true
      if ¬ s2.m_candidates.isEmpty then some (sum2, s2)
      else none
  match found with
  | none => (false, s1)
  | some (sum, s) =>
    let cands := prune_loop s.m_candidates sum max_num_cand (s.m_candidates.length + 1)
    let cands :=
      if max_num_cand < cands.length then
        heap_select_loop (heapify_down cands (cands.length / 2)) max_num_cand (cands.length + 1)
      else cands
    (true, { s with m_candidates := cands })

/-- Header accessor get_rank (0 when unvisited, UINT_MAX when settled). -/
def get_rank (s : St) (l : Nat) : Nat := (s.m_dfs l).m_rank

/-- Header accessor get_rank applied to a possibly-null literal (the source
never reaches the null case; junk default 0). -/
def get_rank_o (s : St) (l : Option Nat) : Nat :=
  match l with | none => 0 | some t => get_rank s t

/-- Header accessor set_rank. -/
def set_rank (s : St) (l : Nat) (r : Nat) : St :=
  { s with m_dfs := Function.update s.m_dfs l { s.m_dfs l with m_rank := r } }

/-- Header accessor set_parent. -/
def set_parent (s : St) (l : Nat) (p : Option Nat) : St :=
  { s with m_dfs := Function.update s.m_dfs l { s.m_dfs l with m_parent := p } }

/-- Header accessor get_min. -/
def get_min (s : St) (l : Nat) : Option Nat := (s.m_dfs l).m_min

/-- Header accessor set_min. -/
def set_min (s : St) (l : Nat) (m : Option Nat) : St :=
  { s with m_dfs := Function.update s.m_dfs l { s.m_dfs l with m_min := m } }

/-- Header accessor get_link. -/
def get_link (s : St) (l : Nat) : Option Nat := (s.m_dfs l).m_link

/-- Header accessor set_link. -/
def set_link (s : St) (l : Nat) (x : Option Nat) : St :=
  { s with m_dfs := Function.update s.m_dfs l { s.m_dfs l with m_link := x } }

/-- Header accessor get_height (junk 0 for a null literal, which the source
would dereference out of bounds). -/
def get_height_o (s : St) (l : Option Nat) : Nat :=
  match l with | none => 0 | some t => (s.m_dfs t).m_height

/-- Header accessor set_height. -/
def set_height (s : St) (l : Nat) (h : Nat) : St :=
  { s with m_dfs := Function.update s.m_dfs l { s.m_dfs l with m_height := h } }

/-- Header accessor get_vcomp (junk 0 when never set). -/
def get_vcomp (s : St) (l : Nat) : Nat := (s.m_dfs l).m_vcomp.getD 0

/-- Header accessor set_vcomp. -/
def set_vcomp (s : St) (l : Nat) (v : Nat) : St :=
  { s with m_dfs := Function.update s.m_dfs l { s.m_dfs l with m_vcomp := some v } }

/-- Header accessor get_rating: the rating of the literal's variable. -/
def get_rating (s : St) (l : Nat) : Rat := s.m_rating (varOf l)

/-- Modelled from the spec: the per-literal DFS arc stacks (add_arc appends,
pop_arc takes from the back, has_arc tests emptiness; the header keeps them
alongside the DFS info). -/
def add_arc (s : St) (u v : Nat) : St :=
  { s with m_arcs := Function.update s.m_arcs u (s.m_arcs u ++ [v]) }

/-- Modelled from the spec: test for a remaining arc. -/
def has_arc (s : St) (v : Nat) : Bool := ¬ (s.m_arcs v).isEmpty

/-- Modelled from the spec: pop one arc (back of the stack). -/
def pop_arc (s : St) (v : Nat) : Nat × St :=
  ((s.m_arcs v).getLastD 0,
   { s with m_arcs := Function.update s.m_arcs v (s.m_arcs v).dropLast })

/-- Embeds lookahead::init_dfs_info: reset the literal's DFS record (and its
arc stack) and stamp it. -/
def init_dfs_info (s : St) (l : Nat) : St :=
  let s := { s with m_dfs := Function.update s.m_dfs l {},
                    m_arcs := Function.update s.m_arcs l [] }
  set_bstamp s l

/-- Embeds lookahead::init_arcs: for each binary successor u of l with larger
index that is stamped, add arcs ~l -> ~u and u -> l (arcs are oriented against
implication). -/
def init_arcs (s : St) (l : Nat) : St :=
  (s.m_binary l).foldl
    (fun t u =>
      if l < u ∧ is_stamped t u then add_arc (add_arc t (negIdx l) (negIdx u)) u l
      else t) s

/-- Embeds lookahead::activate_scc: fresh rank, thread onto the active list,
min initialised to the literal itself. -/
def activate_scc (s : St) (l : Nat) : St :=
  let s := { s with m_rank_counter := s.m_rank_counter + 1 }
  let s := set_rank s l s.m_rank_counter
  let s := set_link s l s.m_active
  let s := set_min s l (some l)
  { s with m_active := some l }

/-- The pop loop of lookahead::found_scc: walk the active list from t down to
v, settling each node; meeting ~v inside the class raises the conflict and
stops. -/
def found_scc_loop (s : St) (v : Nat) (t : Option Nat) (best : Nat) (best_rating : Rat)
    (fuel : Nat) : St × Nat :=
  if fuel = 0 then (s, best)
  else
    match t with
    | none => (s, best)
    | some t0 =>
      if t0 = v then (s, best)
      else if t0 = negIdx v then (set_conflict s, best)
      else
        let s := set_rank s t0 uintMax
        let s := set_parent s t0 (some v)
        let tr := get_rating s t0
        let (best, best_rating) :=
          if best_rating < tr then (t0, tr) else (best, best_rating)
        found_scc_loop s v (get_link s t0) best best_rating (fuel - 1)
termination_by fuel
decreasing_by all_goals omega

/-- Embeds lookahead::found_scc: settle the class rooted at v, pick the
highest-rated member as vcomp, and force the complement class's vcomp when ~v
is already settled. -/
def found_scc (s : St) (v : Nat) (fuel : Nat) : St :=
  let t := s.m_active
  let s := { s with m_active := get_link s v }
  let best := v
  let best_rating := get_rating s v
  let s := set_rank s v uintMax
  let s := set_link s v s.m_settled
  let s := { s with m_settled := t }
  let (s, best) := found_scc_loop s v t best best_rating fuel
  let s := set_parent s v (some v)
  let s := set_vcomp s v best
  if get_rank s (negIdx v) = uintMax then
    match get_parent s (negIdx v) with
    | some p => set_vcomp s v (negIdx (get_vcomp s p))
    | none => set_vcomp s v (negIdx (get_vcomp s 0))
  else s

/-- One step of the iterative DFS of lookahead::get_scc(literal); returns the
next current literal. -/
def dfs_step (s : St) (v : Nat) (fuel : Nat) : St × Option Nat :=
  let ll := get_min s v
  if has_arc s v then
    let (u, s) := pop_arc s v
    let r := get_rank s u
    if 0 < r then
      if r < get_rank_o s ll then (set_min s v (some u), some v)
      else (s, some v)
    else
      let s := set_parent s u (some v)
      (activate_scc s u, some u)
  else
    let u := get_parent s v
    if some v = ll then (found_scc s v fuel, u)
    else
      match u with
      | some u0 =>
        if get_rank_o s ll < get_rank_o s (get_min s u0) then (set_min s u0 ll, some u0)
        else (s, some u0)
      | none => (s, none)

/-- The do-while loop of lookahead::get_scc(literal): the body runs, then the
loop continues while the current literal is non-null and no conflict arose. -/
def dfs_loop (s : St) (v : Nat) (fuel : Nat) : St :=
  if fuel = 0 then s
  else
    let (s, v1) := dfs_step s v (fuel - 1)
    match v1 with
    | none => s
    | some v1 => if s.m_inconsistent then s else dfs_loop s v1 (fuel - 1)
termination_by fuel
decreasing_by all_goals omega

/-- Embeds lookahead::get_scc(literal v): root the DFS at v. -/
def get_scc_lit (s : St) (v : Nat) (fuel : Nat) : St :=
  let s := set_parent s v none
  let s := activate_scc s v
  dfs_loop s v fuel

/-- Embeds lookahead::init_scc: fresh bstamp epoch, reset DFS info and stamp
both polarities of every candidate, build the arc sets, reset rank counter and
the active/settled lists. -/
def init_scc (s : St) : St :=
  let s := inc_bstamp s
  let s := s.m_candidates.foldl
      (fun t c => init_dfs_info (init_dfs_info t (2 * c.1)) (negIdx (2 * c.1))) s
  let s := s.m_candidates.foldl
      (fun t c => init_arcs (init_arcs t (2 * c.1)) (negIdx (2 * c.1))) s
  { s with m_rank_counter := 0, m_active := none, m_settled := none }

/-- The candidate loop of lookahead::get_scc: run the DFS from each polarity
of each candidate still unvisited, stopping on conflict. -/
def get_scc_loop (s : St) (cands : List Nat) (fuel : Nat) : St :=
  match cands with
  | [] => s
  | v :: rest =>
    if s.m_inconsistent then s
    else
      let lit := 2 * v
      let s := if get_rank s lit = 0 then get_scc_lit s lit fuel else s
      let s := if get_rank s (negIdx lit) = 0 then get_scc_lit s (negIdx lit) fuel else s
      get_scc_loop s rest fuel

/-- Embeds lookahead::get_scc (the outer routine). -/
def get_scc_main (s : St) (fuel : Nat) : St :=
  let s := init_scc s
  get_scc_loop s (s.m_candidates.map (fun c => c.1)) fuel

/-- Header accessor get_child: the m_min field of the literal, or m_root_child
at null. -/
def get_child (s : St) (l : Option Nat) : Option Nat :=
  match l with
  | none => s.m_root_child
  | some u => (s.m_dfs u).m_min

/-- Header accessor set_child (writes the m_min field, or m_root_child). -/
def set_child (s : St) (l : Option Nat) (c : Option Nat) : St :=
  match l with
  | none => { s with m_root_child := c }
  | some v => set_min s v c

/-- Modelled from the spec: num_next/get_next expose the binary successor list
(predecessor classes are found via adj traversal in find_heights). -/
def num_next (s : St) (l : Nat) : Nat := (s.m_binary l).length

/-- Modelled from the spec: the j-th binary successor. -/
def get_next (s : St) (l j : Nat) : Nat := (s.m_binary l).getD j 0

/-- The inner predecessor scan of lookahead::find_heights for one settled node
u: raise h and remember the class w of the highest predecessor. -/
def fh_scan (s : St) (p : Option Nat) (u : Nat) (j sz : Nat) (h : Nat) (w : Option Nat)
    (gas : Nat) : Nat × Option Nat :=
  match gas with
  | 0 => (h, w)
  | gas + 1 =>
    if j < sz then
      let v := negIdx (get_next s (negIdx u) j)
      let pv := get_parent s v
      if pv = p then fh_scan s p u (j+1) sz h w gas
      else
        let hh := get_height_o s pv
        if h ≤ hh then fh_scan s p u (j+1) sz (hh + 1) pv gas
        else fh_scan s p u (j+1) sz h w gas
    else (h, w)

/-- The settled-list walk of lookahead::find_heights. -/
def fh_loop (s : St) (u : Option Nat) (pp : Option Nat) (h : Nat) (w : Option Nat)
    (fuel : Nat) : St :=
  match fuel with
  | 0 => s
  | fuel + 1 =>
    match u with
    | none => s
    | some u0 =>
      let uu := get_link s u0
      let p := get_parent s u0
      let (h, w, pp) := if p ≠ pp then (0, (none : Option Nat), p) else (h, w, pp)
      let (h, w) := fh_scan s p u0 0 (num_next s (negIdx u0)) h w (num_next s (negIdx u0))
      if p = some u0 then
        let v := get_child s w
        let s := set_height s u0 h
        let s := set_child s (some u0) none
        let s := set_link s u0 v
        let s := set_child s w (some u0)
        fh_loop s uu pp h w fuel
      else fh_loop s uu pp h w fuel

/-- Embeds lookahead::find_heights. -/
def find_heights (s : St) (fuel : Nat) : St :=
  let s := { s with m_root_child := none }
  fh_loop s s.m_settled none 0 none fuel

/-- The inner offset-assignment loop of lookahead::construct_lookahead_table;
returns the state, the next current literal and parent, and the updated
offset. -/
def clt_inner (s : St) (u : Nat) (v : Option Nat) (offset : Nat) (fuel : Nat) :
    St × Option Nat × Option Nat × Nat :=
  match fuel with
  | 0 => (s, none, v, offset)
  | fuel + 1 =>
    let r := get_rank s u
    let entry := s.m_lookahead.getD r (0, 0)
    let s := { s with m_lookahead := s.m_lookahead.set r (entry.1, offset) }
    let offset := offset + 2
    let s := set_parent s u (match v with | none => none | some t => some (get_vcomp s t))
    let u1 := get_link s u
    match u1 with
    | none =>
      match v with
      | some v0 => clt_inner s v0 (get_parent s v0) offset fuel
      | none => (s, none, none, offset)
    | some u1 => (s, some u1, v, offset)

/-- The outer preorder walk of lookahead::construct_lookahead_table. -/
def clt_loop (s : St) (u : Option Nat) (v : Option Nat) (offset : Nat) (fuel : Nat) : St :=
  match fuel with
  | 0 => s
  | fuel + 1 =>
    match u with
    | none => s
    | some u0 =>
      let s := set_rank s u0 s.m_lookahead.length
      let s := { s with m_lookahead := s.m_lookahead ++ [(get_vcomp s u0, 0)] }
      if get_child s (some u0) ≠ none then
        let s := set_parent s u0 v
        clt_loop s (get_child s (some u0)) (some u0) offset fuel
      else
        let (s, u1, v1, offset) := clt_inner s u0 v offset fuel
        clt_loop s u1 v1 offset fuel

/-- Embeds lookahead::construct_lookahead_table. -/
def construct_lookahead_table (s : St) (fuel : Nat) : St :=
  clt_loop s (get_child s none) none 0 fuel

/-- Embeds lookahead::pre_select: reset the lookahead table; when selection
succeeds run SCC, and unless it found a conflict assign heights and build the
table. -/
def pre_select (s : St) (fuel : Nat) : St :=
  let s := { s with m_lookahead := [] }
  match select s (scope_lvl s) with
  | (false, s) => s
  | (true, s) =>
    let s := get_scc_main s fuel
    if s.m_inconsistent then s
    else construct_lookahead_table (find_heights s fuel) fuel

/-- Embeds lookahead::checkpoint's normal path: the resource-limit check may
raise Cancelled/OutOfMemory and is the only cancellation site; the exception
itself is not part of the state machine (claim C5 treats the unwound control
flow explicitly). -/
def checkpoint (s : St) : St := s

/-- Modelled from the spec: the canonical mix of the two WNB scores,
a*b + a + b. -/
def mix_diff (a b : Rat) : Rat := a * b + a + b

/-- Modelled from the spec: one PRNG draw below the bound (the solver exposes
the seed; the oracle function and call counter stand for the generator). -/
def rand_draw (s : St) (bound : Nat) : Nat × St :=
  (s.m_rand_fn s.m_rand_count % bound, { s with m_rand_count := s.m_rand_count + 1 })

/-- The scan of lookahead::select_literal over the lookahead table. -/
def select_literal_loop (s : St) (entries : List (Nat × Nat))
    (l : Option Nat) (h : Rat) (count : Nat) : Option Nat × St :=
  match entries with
  | [] => (l, s)
  | (lit, _) :: rest =>
    if lit % 2 = 1 ∨ ¬ is_undef s lit then select_literal_loop s rest l h count
    else
      let diff1 := get_wnb s lit
      let diff2 := get_wnb s (negIdx lit)
      let mixd := mix_diff diff1 diff2
      let count := if mixd = h then count + 1 else count
      let (tk, s) :=
        if h < mixd then (true, s)
        else if mixd = h then
          let (r, s) := rand_draw s count
          (r = 0, s)
        else (false, s)
      if tk then
        let count := if h < mixd then 1 else count
        let l := if diff1 < diff2 then some lit else some (negIdx lit)
        select_literal_loop s rest l mixd count
      else select_literal_loop s rest l h count

/-- Embeds lookahead::select_literal: maximise mix_diff over undef positive
table entries, random tie-break, pick the polarity with the smaller WNB. -/
def select_literal (s : St) : Option Nat × St :=
  select_literal_loop s s.m_lookahead none 0 1

/-- Embeds lookahead::check_autarky: the source unconditionally returns false
before its body runs, so every call yields false. -/
def check_autarky (_s : St) (_l : Nat) (_level : Nat) : Bool := false

/-- The statements of lookahead::check_autarky after its unconditional
`return false` (dead code in the source), embedded separately: every clause of
full_watches[l.index()] must contain a true literal, and every binary
neighbour of l must be true (an unfixed one bails out). -/
def check_autarky_body (s : St) (l : Nat) : Bool :=
  (s.m_full_watches l).all (fun off => (s.m_cls off).any (fun li => is_true s li)) &&
  (s.m_binary l).all (fun l2 => is_true s l2)

/-- Modelled from the spec: set_level(l, p) lifts l's level stamp to p's. -/
def set_level (s : St) (l p : Nat) : St :=
  { s with m_stamp := Function.update s.m_stamp (varOf l) (s.m_stamp (varOf p)) }

/-- Embeds lookahead::update_wnb: with no weighted new binaries, a failed
check_autarky skips; a passing one with wnb(l) = 0 promotes l (autarky), else
records the parent equivalence; with weighted new binaries, bump wnb(l)
(statistics and diagnostics omitted). -/
def update_wnb (fuel : Nat) (s : St) (l : Nat) (level : Nat) : St :=
  if s.m_weighted_new_binaries = 0 then
    if ¬ check_autarky s l level then s
    else if get_wnb s l = 0 then
      let s := reset_wnb_all s
      let s := assign s l
      let s := propagate fuel s
      init_wnb s
    else
      match get_parent s l with
      | none => s
      | some p =>
        if s.m_stamp (varOf l) < s.m_stamp (varOf p) then
          set_level (add_binary s (negIdx l) p) l p
        else s
  else inc_wnb s l s.m_weighted_new_binaries

/-- Header accessor dl_enabled: double lookahead is enabled for l while its
istamp differs from the current epoch. -/
def dl_enabled (s : St) (l : Nat) : Bool := s.m_dl_la l ≠ s.m_istamp_id

/-- Header accessor dl_disable. -/
def dl_disable (s : St) (l : Nat) : St :=
  { s with m_dl_la := Function.update s.m_dl_la l s.m_istamp_id }

/-- Modelled from the spec: the double-look level arithmetic must not overflow
c_fixed_truth. -/
def dl_no_overflow (s : St) (base : Nat) : Bool :=
  decide (base + 2 * s.m_lookahead.length * (s.m_config.m_dl_max_iterations + 1) < c_fixed_truth)

/-- The inner table scan of lookahead::double_look. -/
def double_look_scan (fuel : Nat) (s : St) (entries : List (Nat × Nat))
    (base dl_truth : Nat) (change : Bool) : St × Bool :=
  match entries with
  | [] => (s, change)
  | (lit, off) :: rest =>
    if s.m_inconsistent then (s, change)
    else if is_fixed_at s lit dl_truth then double_look_scan fuel s rest base dl_truth change
    else
      let (unsat, s) := push_lookahead2 fuel s lit (base + off)
      if unsat then
        let s := reset_wnb_all s
        let s := assign s (negIdx lit)
        let s := propagate fuel s
        let s := init_wnb s
        double_look_scan fuel s rest base dl_truth true
      else double_look_scan fuel s rest base dl_truth change

/-- The iteration loop of lookahead::double_look. -/
def double_look_loop (fuel : Nat) (s : St) (base dl_truth : Nat)
    (num_iterations : Nat) : St × Nat :=
  match fuel with
  | 0 => (s, base)
  | fuel + 1 =>
    if num_iterations < s.m_config.m_dl_max_iterations ∧ ¬ s.m_inconsistent then
      let base := base + 2 * s.m_lookahead.length
      let (s, change) := double_look_scan fuel s s.m_lookahead base dl_truth false
      if change then double_look_loop fuel s base dl_truth (num_iterations + 1)
      else (s, base)
    else (s, base)

/-- Embeds lookahead::double_look: probe at the dl_truth scoped level, iterate
lookahead2 probes promoting failed literals, and leave base at dl_truth. -/
def double_look (fuel : Nat) (s : St) (l : Nat) (base : Nat) : St × Nat :=
  let dl_truth := base + 2 * s.m_lookahead.length * (s.m_config.m_dl_max_iterations + 1)
  let old_level := s.m_level
  let s := { s with m_level := dl_truth }
  let s := init_wnb s
  let s := assign s l
  let s := propagate fuel s
  let (s, _base) := double_look_loop fuel s base dl_truth 0
  let s := reset_wnb_all s
  ({ s with m_level := old_level }, dl_truth)

/-- Embeds lookahead::do_double: trigger double_look when wnb(l) exceeds the
delta trigger (and the level arithmetic is safe), else decay the trigger. -/
def do_double (fuel : Nat) (s : St) (l : Nat) (base : Nat) : St × Nat :=
  if ¬ s.m_inconsistent ∧ 1 < scope_lvl s ∧ dl_enabled s l then
    if s.m_delta_trigger < get_wnb s l then
      if dl_no_overflow s base then
        let (s, base) := double_look fuel s l base
        let s := { s with m_delta_trigger := get_wnb s l }
        (dl_disable s l, base)
      else (s, base)
    else ({ s with m_delta_trigger := s.m_delta_trigger * s.m_config.m_delta_rho }, base)
  else (s, base)

/-- The per-entry loop of lookahead::compute_wnb (index i over the table,
checkpoint at each entry); returns the state, updated base and change flag. -/
def compute_wnb_scan (fuel : Nat) (s : St) (i : Nat) (base : Nat)
    (first change : Bool) (gas : Nat) : St × Nat × Bool :=
  match gas with
  | 0 => (s, base, change)
  | gas + 1 =>
    if s.m_inconsistent ∨ s.m_lookahead.length ≤ i then (s, base, change)
    else
      let s := checkpoint s
      let (lit, off) := s.m_lookahead.getD i (0, 0)
      if is_fixed_at s lit c_fixed_truth then compute_wnb_scan fuel s (i+1) base first change gas
      else
        let level := base + off
        if level ≤ s.m_stamp (varOf lit) then compute_wnb_scan fuel s (i+1) base first change gas
        else
          let s := reset_wnb_lit s lit
          let s := push_lookahead1 fuel s lit level
          let (s, base) := if ¬ first then do_double fuel s lit base else (s, base)
          let unsat := s.m_inconsistent
          let s := pop_lookahead1 s lit
          if unsat then
            let s := reset_wnb_all s
            let s := assign s (negIdx lit)
            let s := propagate fuel s
            let s := init_wnb s
            compute_wnb_scan fuel s (i+1) base first true gas
          else
            let s := update_wnb fuel s lit level
            compute_wnb_scan fuel s (i+1) base first change gas

/-- The outer while loop of lookahead::compute_wnb. -/
def compute_wnb_loop (fuel : Nat) (s : St) (base : Nat) (first change : Bool) : St :=
  match fuel with
  | 0 => s
  | fuel + 1 =>
    if change ∧ ¬ s.m_inconsistent then
      let (s, base, change) := compute_wnb_scan fuel s 0 base first false s.m_lookahead.length
      if c_fixed_truth - 2 * s.m_lookahead.length < base then s
      else
        let (first, change) := if first ∧ ¬ change then (false, true) else (first, change)
        let s := reset_wnb_all s
        let s := init_wnb s
        compute_wnb_loop fuel s base first change
    else s

/-- Embeds lookahead::compute_wnb. -/
def compute_wnb (fuel : Nat) (s : St) : St :=
  let s := init_wnb s
  let s := compute_wnb_loop fuel s 2 true true
  reset_wnb_all s

/-- Embeds lookahead::choose: repeat pre-selection and wnb computation until a
literal is selected, the table is empty (SAT side) or a conflict arose. -/
def choose (fuel : Nat) (s : St) : Option Nat × St :=
  if fuel = 0 then (none, s)
  else
    let s := pre_select s (fuel - 1)
    if s.m_lookahead.isEmpty then (none, s)
    else
      let s := compute_wnb (fuel - 1) s
      if s.m_inconsistent then (none, s)
      else
        match select_literal s with
        | (none, s) => choose (fuel - 1) s
        | (some l, s) => (some l, s)
termination_by fuel
decreasing_by all_goals omega

/-- Embeds lookahead::backtrack: while inconsistent, pop a scope, flip the
prefix bit, assign the negated last decision and propagate; an empty decision
trail reports UNSAT (false). -/
def backtrack (fuel : Nat) (s : St) (trail : List Nat) : Bool × St × List Nat :=
  if fuel = 0 then (true, s, trail)
  else
    if s.m_inconsistent then
      match trail.getLast? with
      | none => (false, s, trail)
      | some d =>
        let s := pop s
        let s := flip_pfx s
        let s := assign s (negIdx d)
        let trail := trail.dropLast
        let s := propagate (fuel - 1) s
        backtrack (fuel - 1) s trail
    else (true, s, trail)
termination_by fuel
decreasing_by all_goals omega

/-- The decision loop of lookahead::search (checkpoint cancellation is not
part of the state machine; fuel bounds the loop and none is returned when it
runs out, which a terminating run never hits). -/
def search_loop (fuel : Nat) (s : St) (trail : List Nat) : Option LB :=
  if fuel = 0 then none
  else
    let s := inc_istamp s
    let s := checkpoint s
    if s.m_inconsistent then
      match backtrack (fuel - 1) s trail with
      | (false, _, _) => some LB.lfalse
      | (true, s, trail) => search_loop (fuel - 1) s trail
    else
      let (l, s) := choose (fuel - 1) s
      if s.m_inconsistent then
        match backtrack (fuel - 1) s trail with
        | (false, _, _) => some LB.lfalse
        | (true, s, trail) => search_loop (fuel - 1) s trail
      else
        match l with
        | none => some LB.ltrue
        | some l =>
          let s := push (fuel - 1) s l c_fixed_truth
          search_loop (fuel - 1) s (trail ++ [l])
termination_by fuel
decreasing_by all_goals omega

/-- Embeds lookahead::search: clear the model, enter searching mode at the
fixed-truth scoped level and run the decision loop. -/
def search (fuel : Nat) (s : St) : Option LB :=
  let s := { s with m_model := [], m_search_mode := Mode.searching,
                    m_level := c_fixed_truth }
  search_loop fuel s []

/-- Embeds the loop body of lookahead::init_model for one variable: the source
declares an uninitialized lbool val, writes l_undef into it when the literal is
undef, and then unconditionally overwrites it with l_true or l_false — the
first branch is dead. -/
def init_model_val (s : St) (v : Nat) : LB :=
  let lit := 2 * v
  let _val : Option LB := if is_undef s lit then some LB.lundef else none
  if is_true s lit then LB.ltrue else LB.lfalse

/-- Embeds lookahead::init_model: reset the model and push one value per
variable. -/
def init_model (s : St) : St :=
  { s with m_model := (List.range s.m_num_vars).map (init_model_val s) }

/-- The spec's model extraction sentence, written from the spec (not the
source), for comparison: true if the positive literal is true in the trail,
false if it is false, undef otherwise. -/
def init_model_val_spec (s : St) (v : Nat) : LB :=
  let lit := 2 * v
  if is_undef s lit then LB.lundef
  else if is_true s lit then LB.ltrue
  else LB.lfalse

/-- Modelled from the spec: a fresh state over nv variables as produced by the
init_var loop (all arrays empty/zero, every variable free). -/
def mk_state (nv : Nat) : St :=
  { m_num_vars := nv, m_freevars := List.range nv }

/-- Models the binary-copy loop of lookahead::init: the parent solver's watch
lists present each binary clause ordered both ways, and add_binary(l, l2) runs
for the orientation with l.index() < l2.index(). -/
def init_bin_pairs (s : St) (bins : List (Nat × Nat)) : St :=
  bins.foldl (fun t p => if p.1 < p.2 then add_binary t p.1 p.2 else t) s

/-- Embeds the per-clause body of lookahead::copy_clauses: allocate, record,
attach, and register the clause in the full watch list of each literal's
negation (DRAT omitted). -/
def mk_clause (s : St) (lits : List Nat) : St :=
  let off := s.m_next_off
  let s := { s with m_cls := Function.update s.m_cls off lits,
                    m_next_off := off + 1,
                    m_clauses := s.m_clauses ++ [off] }
  let s := attach_clause s off
  lits.foldl
    (fun t li =>
      let fw := t.m_full_watches (negIdx li) ++ [off]
      { t with m_full_watches := Function.update t.m_full_watches (negIdx li) fw }) s

/-- Embeds lookahead::init over the interface data of the spec (a list of
binary clauses, larger clauses, and initial units): set the scalar fields,
copy binaries, clauses and units, propagate and move qhead to the end of the
trail (the external-watch copy loop is empty without EXT constraints). -/
def init (fuel : Nat) (s : St) (bins : List (Nat × Nat)) (clauses : List (List Nat))
    (units : List Nat) : St :=
  let s := { s with m_delta_trigger := ((s.m_num_vars / 10 : Nat) : Rat),
                    m_config := { s.m_config with m_dl_success := 4/5 },
                    m_inconsistent := false, m_qhead := 0, m_bstamp_id := 0 }
  let s := init_bin_pairs s bins
  let s := clauses.foldl mk_clause s
  let s := units.foldl assign s
  let s := propagate fuel s
  { s with m_qhead := s.m_trail.length }

/-- Embeds lookahead::init_search followed by lookahead::search on a CNF given
through the interface data: searching mode at the fixed-truth level, init,
then search. -/
def init_search (fuel : Nat) (nv : Nat) (bins : List (Nat × Nat))
    (clauses : List (List Nat)) (units : List Nat) : Option LB :=
  let s := { mk_state nv with m_search_mode := Mode.searching,
                              m_level := c_fixed_truth }
  let s := init fuel s bins clauses units
  search fuel s

/-- The extension relation of one open scope: t is reachable from s by the
operations propagation performs (trail appends, recorded pair_push extensions
of the binary map, retired-list appends), with every scope stack untouched. -/
def Ext (s t : St) : Prop :=
  (∃ d, t.m_trail = s.m_trail ++ d) ∧
  (∃ ps : List (Nat × Nat),
      t.m_binary = ps.foldl (fun B p => pair_push B p.1 p.2) s.m_binary ∧
      t.m_binary_trail = s.m_binary_trail ++ ps.map (fun p => negIdx p.1)) ∧
  (∃ r, t.m_retired_clauses = s.m_retired_clauses ++ r) ∧
  (∃ w, t.m_retired_ternary = s.m_retired_ternary ++ w) ∧
  t.m_trail_lim = s.m_trail_lim ∧
  t.m_binary_trail_lim = s.m_binary_trail_lim ∧
  t.m_qhead_lim = s.m_qhead_lim ∧
  t.m_num_tc1_lim = s.m_num_tc1_lim ∧
  t.m_retired_clause_lim = s.m_retired_clause_lim ∧
  t.m_retired_ternary_lim = s.m_retired_ternary_lim

/-- The all-six-scope-stacks-equal-length invariant claimed by the spec. -/
def SixEq (s : St) : Prop :=
  s.m_trail_lim.length = s.m_binary_trail_lim.length ∧
  s.m_trail_lim.length = s.m_qhead_lim.length ∧
  s.m_trail_lim.length = s.m_num_tc1_lim.length ∧
  s.m_trail_lim.length = s.m_retired_clause_lim.length ∧
  s.m_trail_lim.length = s.m_retired_ternary_lim.length

/-- A concrete lookahead1-probe state for the autarky claim: literal 0 with one
full-watch clause [2,3] satisfied by the fixed true literal 2, a single binary
neighbour 2 (true), and no weighted new binaries. -/
def c1cx : St :=
  { mk_state 2 with
    m_cls := Function.update (fun _ => []) 0 [2, 3],
    m_full_watches := Function.update (fun _ => []) 0 [0],
    m_binary := Function.update (fun _ => []) 0 [2],
    m_stamp := Function.update (fun _ => 0) 1 c_fixed_truth,
    phase := Function.update (fun _ => false) 1 true }

/-- The concrete state reaching the first search_loop iteration on the
pigeonhole-2 CNF. -/
def c9S1 : St :=
  { init 50 { mk_state 2 with m_search_mode := Mode.searching, m_level := c_fixed_truth }
      [(0,2),(1,3),(0,3),(1,2)] [] [] with
    m_model := [], m_search_mode := Mode.searching, m_level := c_fixed_truth }

/-- c9S1 after the decision loop's istamp bump. -/
def c9S2 : St := inc_istamp c9S1

/-- c9S2 with the lookahead table cleared (entry of pre_select). -/
def c9S3 : St := { c9S2 with m_lookahead := [] }

/-- The result of the selection stage on the pigeonhole-2 state. -/
def c9P : Bool × St := select c9S3 (scope_lvl c9S3)

/-- The state after selection, entering get_scc. -/
def c9S4 : St := c9P.2


end Lookahead

namespace Lookahead

theorem Ext_of_fields {s t : St}
    (h1 : t.m_trail = s.m_trail) (h2 : t.m_binary = s.m_binary)
    (h3 : t.m_binary_trail = s.m_binary_trail)
    (h4 : t.m_retired_clauses = s.m_retired_clauses)
    (h5 : t.m_retired_ternary = s.m_retired_ternary)
    (h6 : t.m_trail_lim = s.m_trail_lim) (h7 : t.m_binary_trail_lim = s.m_binary_trail_lim)
    (h8 : t.m_qhead_lim = s.m_qhead_lim) (h9 : t.m_num_tc1_lim = s.m_num_tc1_lim)
    (h10 : t.m_retired_clause_lim = s.m_retired_clause_lim)
    (h11 : t.m_retired_ternary_lim = s.m_retired_ternary_lim) : Ext s t :=
  ⟨⟨[], by simp [h1]⟩, ⟨[], by simp [h2], by simp [h3]⟩, ⟨[], by simp [h4]⟩,
   ⟨[], by simp [h5]⟩, h6, h7, h8, h9, h10, h11⟩

theorem Ext_refl (s : St) : Ext s s :=
  Ext_of_fields rfl rfl rfl rfl rfl rfl rfl rfl rfl rfl rfl

theorem Ext_trans {s t u : St} (h1 : Ext s t) (h2 : Ext t u) : Ext s u := by
  obtain ⟨⟨d1, e1⟩, ⟨ps1, f1, g1⟩, ⟨r1, p1⟩, ⟨w1, q1⟩, a1, a2, a3, a4, a5, a6⟩ := h1
  obtain ⟨⟨d2, e2⟩, ⟨ps2, f2, g2⟩, ⟨r2, p2⟩, ⟨w2, q2⟩, b1, b2, b3, b4, b5, b6⟩ := h2
  refine ⟨⟨d1 ++ d2, by rw [e2, e1, List.append_assoc]⟩,
    ⟨ps1 ++ ps2, by rw [f2, List.foldl_append, f1],
      by rw [g2, g1, List.map_append, List.append_assoc]⟩,
    ⟨r1 ++ r2, by rw [p2, p1, List.append_assoc]⟩,
    ⟨w1 ++ w2, by rw [q2, q1, List.append_assoc]⟩,
    b1.trans a1, b2.trans a2, b3.trans a3, b4.trans a4, b5.trans a5, b6.trans a6⟩

theorem Ext_foldl {α : Type} (g : St → α → St) (hg : ∀ u x, Ext u (g u x)) :
    ∀ (l : List α) (u : St), Ext u (List.foldl g u l) := by
  intro l
  induction l with
  | nil => intro u; exact Ext_refl u
  | cons a as ih => intro u; exact Ext_trans (hg u a) (ih (g u a))

theorem foldl_proj_inv {α β : Type} (f : St → β) (g : St → α → St)
    (hg : ∀ u x, f (g u x) = f u) :
    ∀ (l : List α) (u : St), f (List.foldl g u l) = f u := by
  intro l
  induction l with
  | nil => intro u; rfl
  | cons a as ih => intro u; rw [List.foldl_cons, ih (g u a), hg]

theorem pair_push_del (B : BinMap) (l1 l2 : Nat) :
    del_binary_map (pair_push B l1 l2) (negIdx l1) = B := by
  by_cases h : negIdx l2 = negIdx l1
  · have hl : l2 = l1 := by
      unfold negIdx at h
      split at h <;> split at h <;> omega
    subst hl
    have e1 : pair_push B l2 l2 =
        Function.update B (negIdx l2) ((B (negIdx l2) ++ [l2]) ++ [l2]) := by
      simp only [pair_push, Function.update_same, Function.update_idem]
    rw [e1]
    simp only [del_binary_map]
    rw [Function.update_same, List.getLastD_concat, List.dropLast_concat,
      Function.update_idem, Function.update_same, List.dropLast_concat,
      Function.update_idem, Function.update_eq_self]
  · have e1 : pair_push B l1 l2 =
        Function.update (Function.update B (negIdx l1) (B (negIdx l1) ++ [l2]))
          (negIdx l2) (B (negIdx l2) ++ [l1]) := by
      simp only [pair_push]
      rw [Function.update_noteq h]
    rw [e1]
    simp only [del_binary_map]
    have r1 : (Function.update (Function.update B (negIdx l1) (B (negIdx l1) ++ [l2]))
        (negIdx l2) (B (negIdx l2) ++ [l1])) (negIdx l1) = B (negIdx l1) ++ [l2] := by
      rw [Function.update_noteq (Ne.symm h), Function.update_same]
    rw [r1, List.getLastD_concat, List.dropLast_concat]
    have r2 : (Function.update (Function.update (Function.update B (negIdx l1)
        (B (negIdx l1) ++ [l2])) (negIdx l2) (B (negIdx l2) ++ [l1])) (negIdx l1)
        (B (negIdx l1))) (negIdx l2) = B (negIdx l2) ++ [l1] := by
      rw [Function.update_noteq h, Function.update_same]
    rw [r2, List.dropLast_concat]
    funext x
    by_cases hx1 : x = negIdx l2
    · subst hx1; rw [Function.update_same]
    · by_cases hx2 : x = negIdx l1
      · subst hx2; rw [Function.update_noteq hx1, Function.update_same]
      · rw [Function.update_noteq hx1, Function.update_noteq hx2,
          Function.update_noteq hx1, Function.update_noteq hx2]

theorem del_undo (ps : List (Nat × Nat)) (B : BinMap) :
    (ps.map (fun p => negIdx p.1)).foldr (fun idx B2 => del_binary_map B2 idx)
      (ps.foldl (fun B2 p => pair_push B2 p.1 p.2) B) = B := by
  induction ps generalizing B with
  | nil => rfl
  | cons p rest ih =>
    simp only [List.map_cons, List.foldl_cons, List.foldr_cons, ih, pair_push_del]

theorem Ext_assign (s : St) (l : Nat) : Ext s (assign s l) := by
  unfold assign
  dsimp only
  split
  · split <;>
      refine ⟨⟨[l], ?_⟩, ⟨[], ?_, ?_⟩, ⟨[], ?_⟩, ⟨[], ?_⟩, ?_, ?_, ?_, ?_, ?_, ?_⟩ <;>
      simp [set_true]
  · split
    · exact Ext_of_fields rfl rfl rfl rfl rfl rfl rfl rfl rfl rfl rfl
    · exact Ext_refl s

theorem Ext_propagated (s : St) (l : Nat) : Ext s (propagated s l) := by
  unfold propagated
  dsimp only
  split
  · exact Ext_assign s l
  · exact Ext_trans (Ext_assign s l)
      (Ext_of_fields rfl rfl rfl rfl rfl rfl rfl rfl rfl rfl rfl)
  · exact Ext_assign s l

theorem Ext_add_binary (s : St) (u v : Nat) : Ext s (add_binary s u v) := by
  unfold add_binary
  split
  · exact Ext_refl s
  · split
    · exact Ext_refl s
    · exact ⟨⟨[], by simp⟩, ⟨[(u, v)], by simp, by simp⟩, ⟨[], by simp⟩, ⟨[], by simp⟩,
        rfl, rfl, rfl, rfl, rfl, rfl⟩

theorem Ext_set_bstamp (s : St) (l : Nat) : Ext s (set_bstamp s l) :=
  Ext_of_fields rfl rfl rfl rfl rfl rfl rfl rfl rfl rfl rfl

theorem Ext_inc_bstamp (s : St) : Ext s (inc_bstamp s) := by
  unfold inc_bstamp
  dsimp only
  split <;> exact Ext_of_fields rfl rfl rfl rfl rfl rfl rfl rfl rfl rfl rfl

theorem Ext_set_bstamps (s : St) (l : Nat) : Ext s (set_bstamps s l) := by
  unfold set_bstamps
  exact Ext_trans (Ext_trans (Ext_inc_bstamp s) (Ext_set_bstamp _ l))
    (Ext_foldl set_bstamp (fun u x => Ext_set_bstamp u x) _ _)

theorem Ext_update_pfx (s : St) (l : Nat) : Ext s (update_pfx s l) := by
  unfold update_pfx
  dsimp only
  split
  · exact Ext_of_fields rfl rfl rfl rfl rfl rfl rfl rfl rfl rfl rfl
  · exact Ext_refl s

theorem Ext_add_tc1_loop (gas : Nat) :
    ∀ (s : St) (u v i sz : Nat), Ext s (add_tc1_loop s u v i sz gas).2 := by
  induction gas with
  | zero => intro s u v i sz; exact Ext_refl s
  | succ gas ih =>
    intro s u v i sz
    simp only [add_tc1_loop]
    split
    · split
      · split
        · exact Ext_assign s u
        · split
          · have h1 : Ext s { s with m_num_tc1 := s.m_num_tc1 + 1 } :=
              Ext_of_fields rfl rfl rfl rfl rfl rfl rfl rfl rfl rfl rfl
            exact Ext_trans (Ext_trans h1 (Ext_add_binary _ u _)) (ih _ u v _ sz)
          · exact ih s u v _ sz
      · exact ih s u v _ sz
    · exact Ext_refl s

theorem Ext_add_tc1 (s : St) (u v : Nat) : Ext s (add_tc1 s u v).2 :=
  Ext_add_tc1_loop _ s u v _ _

theorem Ext_try_add_binary (s : St) (u v : Nat) : Ext s (try_add_binary s u v) := by
  unfold try_add_binary
  dsimp only
  have h0 : Ext s (set_bstamps s (negIdx u)) := Ext_set_bstamps s (negIdx u)
  split
  · exact Ext_trans h0 (Ext_assign _ u)
  · split
    · split
      next s1 heq =>
        have h1 : Ext s s1 := Ext_trans h0 (by rw [show s1 = (add_tc1 (set_bstamps s (negIdx u)) u v).2 from by rw [heq]]; exact Ext_add_tc1 _ u v)
        have h2 : Ext s (set_bstamps s1 (negIdx v)) := Ext_trans h1 (Ext_set_bstamps s1 (negIdx v))
        split
        · exact Ext_trans h2 (Ext_assign _ v)
        · split
          next s3 heq2 =>
            have h3 : Ext s s3 := Ext_trans h2 (by rw [show s3 = (add_tc1 (set_bstamps s1 (negIdx v)) v u).2 from by rw [heq2]]; exact Ext_add_tc1 _ v u)
            exact Ext_trans (Ext_trans (Ext_trans h3 (Ext_update_pfx s3 u))
              (Ext_update_pfx _ v)) (Ext_add_binary _ u v)
          next s3 heq2 =>
            exact Ext_trans h2 (by rw [show s3 = (add_tc1 (set_bstamps s1 (negIdx v)) v u).2 from by rw [heq2]]; exact Ext_add_tc1 _ v u)
      next s1 heq =>
        exact Ext_trans h0 (by rw [show s1 = (add_tc1 (set_bstamps s (negIdx u)) u v).2 from by rw [heq]]; exact Ext_add_tc1 _ u v)
    · exact h0

theorem Ext_detach_clause (s : St) (off : Nat) : Ext s (detach_clause s off) := by
  unfold detach_clause
  dsimp only
  refine ⟨⟨[], ?_⟩, ⟨[], ?_, ?_⟩, ⟨[off], ?_⟩, ⟨[], ?_⟩, ?_, ?_, ?_, ?_, ?_, ?_⟩ <;> simp

theorem Ext_detach_ternary (s : St) (l1 l2 l3 : Nat) : Ext s (detach_ternary s l1 l2 l3) := by
  unfold detach_ternary
  dsimp only
  refine ⟨⟨[], ?_⟩, ⟨[], ?_, ?_⟩, ⟨[], ?_⟩, ⟨[(l1, l2, l3)], ?_⟩, ?_, ?_, ?_, ?_, ?_, ?_⟩ <;>
    simp

theorem Ext_pc_ternary (s : St) (l l1 l2 : Nat) : Ext s (pc_ternary s l l1 l2).1 := by
  unfold pc_ternary
  split
  · split
    · split
      · exact Ext_propagated s l2
      · split
        · exact Ext_of_fields rfl rfl rfl rfl rfl rfl rfl rfl rfl rfl rfl
        · exact Ext_refl s
    · exact Ext_refl s
  · split
    · split
      · exact Ext_propagated s l1
      · exact Ext_refl s
    · split
      · exact Ext_trans (Ext_detach_ternary s (negIdx l) l1 l2) (Ext_try_add_binary _ l1 l2)
      · exact Ext_of_fields rfl rfl rfl rfl rfl rfl rfl rfl rfl rfl rfl
      · exact Ext_refl s

theorem Ext_pc_clause (s : St) (l blocker off : Nat) : Ext s (pc_clause s l blocker off).1 := by
  unfold pc_clause
  dsimp only
  split
  · exact Ext_refl s
  · generalize (if (s.m_cls off).getD 0 0 = negIdx l
        then ((s.m_cls off).set 0 ((s.m_cls off).getD 1 0)).set 1 ((s.m_cls off).getD 0 0)
        else s.m_cls off) = c
    split
    · exact Ext_of_fields rfl rfl rfl rfl rfl rfl rfl rfl rfl rfl rfl
    · split
      · split
        · split
          · split
            · exact Ext_trans (Ext_trans
                (Ext_of_fields rfl rfl rfl rfl rfl rfl rfl rfl rfl rfl rfl)
                (Ext_detach_clause _ off)) (Ext_try_add_binary _ _ _)
            · exact Ext_of_fields rfl rfl rfl rfl rfl rfl rfl rfl rfl rfl rfl
            · exact Ext_of_fields rfl rfl rfl rfl rfl rfl rfl rfl rfl rfl rfl
          · exact Ext_of_fields rfl rfl rfl rfl rfl rfl rfl rfl rfl rfl rfl
        · split
          · split
            · exact Ext_of_fields rfl rfl rfl rfl rfl rfl rfl rfl rfl rfl rfl
            · exact Ext_of_fields rfl rfl rfl rfl rfl rfl rfl rfl rfl rfl rfl
          · exact Ext_of_fields rfl rfl rfl rfl rfl rfl rfl rfl rfl rfl rfl
      · split
        · exact Ext_of_fields rfl rfl rfl rfl rfl rfl rfl rfl rfl rfl rfl
        · exact Ext_trans (Ext_of_fields rfl rfl rfl rfl rfl rfl rfl rfl rfl rfl rfl)
            (Ext_propagated _ _)

theorem Ext_pcl_loop (pending : List Watched) :
    ∀ (kept : List Watched) (s : St) (l : Nat), Ext s (propagate_clauses_loop s l pending kept) := by
  induction pending with
  | nil =>
    intro kept s l
    exact Ext_of_fields rfl rfl rfl rfl rfl rfl rfl rfl rfl rfl rfl
  | cons w rest ih =>
    intro kept s l
    simp only [propagate_clauses_loop]
    split
    · exact Ext_of_fields rfl rfl rfl rfl rfl rfl rfl rfl rfl rfl rfl
    · split
      next l1 l2 =>
        rcases he : pc_ternary s l l1 l2 with ⟨s1, keep⟩
        have h2 : Ext s s1 := by
          have h3 := Ext_pc_ternary s l l1 l2
          rw [he] at h3
          exact h3
        exact Ext_trans h2 (ih _ s1 l)
      next blocker off =>
        rcases he : pc_clause s l blocker off with ⟨s1, ko⟩
        have h2 : Ext s s1 := by
          have h3 := Ext_pc_clause s l blocker off
          rw [he] at h3
          exact h3
        exact Ext_trans h2 (ih _ s1 l)
      next idx =>
        exact ih _ s l

theorem Ext_propagate_clauses (s : St) (l : Nat) : Ext s (propagate_clauses s l) := by
  unfold propagate_clauses
  split
  · exact Ext_refl s
  · exact Ext_pcl_loop _ _ s l

theorem Ext_pb_loop (lits : List Nat) : ∀ (s : St), Ext s (propagate_binary_loop s lits) := by
  induction lits with
  | nil => intro s; exact Ext_refl s
  | cons w rest ih =>
    intro s
    simp only [propagate_binary_loop]
    split
    · exact Ext_refl s
    · exact Ext_trans (Ext_assign s w) (ih _)

theorem Ext_propagate_binary (s : St) (l : Nat) : Ext s (propagate_binary s l) := by
  unfold propagate_binary
  exact Ext_pb_loop _ s

theorem Ext_pass1 (gas : Nat) : ∀ (s : St) (i sz : Nat), Ext s (propagate_pass1 s i sz gas) := by
  induction gas with
  | zero => intro s i sz; exact Ext_refl s
  | succ gas ih =>
    intro s i sz
    simp only [propagate_pass1]
    split
    · split
      · exact Ext_refl s
      · exact Ext_trans (Ext_propagate_binary s _) (ih _ _ sz)
    · exact Ext_refl s

theorem Ext_pass2 (gas : Nat) : ∀ (s : St) (i sz : Nat), Ext s (propagate_pass2 s i sz gas) := by
  induction gas with
  | zero => intro s i sz; exact Ext_refl s
  | succ gas ih =>
    intro s i sz
    simp only [propagate_pass2]
    split
    · split
      · exact Ext_refl s
      · exact Ext_trans (Ext_propagate_clauses s _) (ih _ _ sz)
    · exact Ext_refl s

theorem Ext_propagate (fuel : Nat) : ∀ (s : St), Ext s (propagate fuel s) := by
  induction fuel with
  | zero => intro s; exact Ext_refl s
  | succ fuel ih =>
    intro s
    simp only [propagate]
    split
    · exact Ext_trans (Ext_trans (Ext_trans (Ext_pass1 _ s _ _) (Ext_pass2 _ _ _ _))
        (Ext_of_fields rfl rfl rfl rfl rfl rfl rfl rfl rfl rfl rfl)) (ih _)
    · exact Ext_refl s

theorem undoT_m_trail (L : List Nat) (u : St) :
    (List.foldl pop_undo_trail u L).m_trail = u.m_trail :=
  foldl_proj_inv (fun t2 => t2.m_trail) pop_undo_trail (fun _ _ => rfl) L u

theorem undoT_m_binary (L : List Nat) (u : St) :
    (List.foldl pop_undo_trail u L).m_binary = u.m_binary :=
  foldl_proj_inv (fun t2 => t2.m_binary) pop_undo_trail (fun _ _ => rfl) L u

theorem undoT_m_binary_trail (L : List Nat) (u : St) :
    (List.foldl pop_undo_trail u L).m_binary_trail = u.m_binary_trail :=
  foldl_proj_inv (fun t2 => t2.m_binary_trail) pop_undo_trail (fun _ _ => rfl) L u

theorem undoT_m_retired_clauses (L : List Nat) (u : St) :
    (List.foldl pop_undo_trail u L).m_retired_clauses = u.m_retired_clauses :=
  foldl_proj_inv (fun t2 => t2.m_retired_clauses) pop_undo_trail (fun _ _ => rfl) L u

theorem undoT_m_retired_ternary (L : List Nat) (u : St) :
    (List.foldl pop_undo_trail u L).m_retired_ternary = u.m_retired_ternary :=
  foldl_proj_inv (fun t2 => t2.m_retired_ternary) pop_undo_trail (fun _ _ => rfl) L u

theorem undoT_m_num_tc1 (L : List Nat) (u : St) :
    (List.foldl pop_undo_trail u L).m_num_tc1 = u.m_num_tc1 :=
  foldl_proj_inv (fun t2 => t2.m_num_tc1) pop_undo_trail (fun _ _ => rfl) L u

theorem undoT_m_trail_lim (L : List Nat) (u : St) :
    (List.foldl pop_undo_trail u L).m_trail_lim = u.m_trail_lim :=
  foldl_proj_inv (fun t2 => t2.m_trail_lim) pop_undo_trail (fun _ _ => rfl) L u

theorem undoT_m_binary_trail_lim (L : List Nat) (u : St) :
    (List.foldl pop_undo_trail u L).m_binary_trail_lim = u.m_binary_trail_lim :=
  foldl_proj_inv (fun t2 => t2.m_binary_trail_lim) pop_undo_trail (fun _ _ => rfl) L u

theorem undoT_m_qhead_lim (L : List Nat) (u : St) :
    (List.foldl pop_undo_trail u L).m_qhead_lim = u.m_qhead_lim :=
  foldl_proj_inv (fun t2 => t2.m_qhead_lim) pop_undo_trail (fun _ _ => rfl) L u

theorem undoT_m_num_tc1_lim (L : List Nat) (u : St) :
    (List.foldl pop_undo_trail u L).m_num_tc1_lim = u.m_num_tc1_lim :=
  foldl_proj_inv (fun t2 => t2.m_num_tc1_lim) pop_undo_trail (fun _ _ => rfl) L u

theorem undoT_m_retired_clause_lim (L : List Nat) (u : St) :
    (List.foldl pop_undo_trail u L).m_retired_clause_lim = u.m_retired_clause_lim :=
  foldl_proj_inv (fun t2 => t2.m_retired_clause_lim) pop_undo_trail (fun _ _ => rfl) L u

theorem undoT_m_retired_ternary_lim (L : List Nat) (u : St) :
    (List.foldl pop_undo_trail u L).m_retired_ternary_lim = u.m_retired_ternary_lim :=
  foldl_proj_inv (fun t2 => t2.m_retired_ternary_lim) pop_undo_trail (fun _ _ => rfl) L u

theorem reatC_m_trail (L : List Nat) (u : St) :
    (List.foldl attach_clause u L).m_trail = u.m_trail :=
  foldl_proj_inv (fun t2 => t2.m_trail) attach_clause (fun _ _ => by unfold attach_clause attach_ternary3; dsimp only; split <;> rfl) L u

theorem reatC_m_binary (L : List Nat) (u : St) :
    (List.foldl attach_clause u L).m_binary = u.m_binary :=
  foldl_proj_inv (fun t2 => t2.m_binary) attach_clause (fun _ _ => by unfold attach_clause attach_ternary3; dsimp only; split <;> rfl) L u

theorem reatC_m_binary_trail (L : List Nat) (u : St) :
    (List.foldl attach_clause u L).m_binary_trail = u.m_binary_trail :=
  foldl_proj_inv (fun t2 => t2.m_binary_trail) attach_clause (fun _ _ => by unfold attach_clause attach_ternary3; dsimp only; split <;> rfl) L u

theorem reatC_m_retired_clauses (L : List Nat) (u : St) :
    (List.foldl attach_clause u L).m_retired_clauses = u.m_retired_clauses :=
  foldl_proj_inv (fun t2 => t2.m_retired_clauses) attach_clause (fun _ _ => by unfold attach_clause attach_ternary3; dsimp only; split <;> rfl) L u

theorem reatC_m_retired_ternary (L : List Nat) (u : St) :
    (List.foldl attach_clause u L).m_retired_ternary = u.m_retired_ternary :=
  foldl_proj_inv (fun t2 => t2.m_retired_ternary) attach_clause (fun _ _ => by unfold attach_clause attach_ternary3; dsimp only; split <;> rfl) L u

theorem reatC_m_num_tc1 (L : List Nat) (u : St) :
    (List.foldl attach_clause u L).m_num_tc1 = u.m_num_tc1 :=
  foldl_proj_inv (fun t2 => t2.m_num_tc1) attach_clause (fun _ _ => by unfold attach_clause attach_ternary3; dsimp only; split <;> rfl) L u

theorem reatC_m_trail_lim (L : List Nat) (u : St) :
    (List.foldl attach_clause u L).m_trail_lim = u.m_trail_lim :=
  foldl_proj_inv (fun t2 => t2.m_trail_lim) attach_clause (fun _ _ => by unfold attach_clause attach_ternary3; dsimp only; split <;> rfl) L u

theorem reatC_m_binary_trail_lim (L : List Nat) (u : St) :
    (List.foldl attach_clause u L).m_binary_trail_lim = u.m_binary_trail_lim :=
  foldl_proj_inv (fun t2 => t2.m_binary_trail_lim) attach_clause (fun _ _ => by unfold attach_clause attach_ternary3; dsimp only; split <;> rfl) L u

theorem reatC_m_qhead_lim (L : List Nat) (u : St) :
    (List.foldl attach_clause u L).m_qhead_lim = u.m_qhead_lim :=
  foldl_proj_inv (fun t2 => t2.m_qhead_lim) attach_clause (fun _ _ => by unfold attach_clause attach_ternary3; dsimp only; split <;> rfl) L u

theorem reatC_m_num_tc1_lim (L : List Nat) (u : St) :
    (List.foldl attach_clause u L).m_num_tc1_lim = u.m_num_tc1_lim :=
  foldl_proj_inv (fun t2 => t2.m_num_tc1_lim) attach_clause (fun _ _ => by unfold attach_clause attach_ternary3; dsimp only; split <;> rfl) L u

theorem reatC_m_retired_clause_lim (L : List Nat) (u : St) :
    (List.foldl attach_clause u L).m_retired_clause_lim = u.m_retired_clause_lim :=
  foldl_proj_inv (fun t2 => t2.m_retired_clause_lim) attach_clause (fun _ _ => by unfold attach_clause attach_ternary3; dsimp only; split <;> rfl) L u

theorem reatC_m_retired_ternary_lim (L : List Nat) (u : St) :
    (List.foldl attach_clause u L).m_retired_ternary_lim = u.m_retired_ternary_lim :=
  foldl_proj_inv (fun t2 => t2.m_retired_ternary_lim) attach_clause (fun _ _ => by unfold attach_clause attach_ternary3; dsimp only; split <;> rfl) L u

theorem reatT_m_trail (L : List (Nat × Nat × Nat)) (u : St) :
    (List.foldl reattach_ternary u L).m_trail = u.m_trail :=
  foldl_proj_inv (fun t2 => t2.m_trail) reattach_ternary (fun _ _ => by unfold reattach_ternary attach_ternary3; rfl) L u

theorem reatT_m_binary (L : List (Nat × Nat × Nat)) (u : St) :
    (List.foldl reattach_ternary u L).m_binary = u.m_binary :=
  foldl_proj_inv (fun t2 => t2.m_binary) reattach_ternary (fun _ _ => by unfold reattach_ternary attach_ternary3; rfl) L u

theorem reatT_m_binary_trail (L : List (Nat × Nat × Nat)) (u : St) :
    (List.foldl reattach_ternary u L).m_binary_trail = u.m_binary_trail :=
  foldl_proj_inv (fun t2 => t2.m_binary_trail) reattach_ternary (fun _ _ => by unfold reattach_ternary attach_ternary3; rfl) L u

theorem reatT_m_retired_clauses (L : List (Nat × Nat × Nat)) (u : St) :
    (List.foldl reattach_ternary u L).m_retired_clauses = u.m_retired_clauses :=
  foldl_proj_inv (fun t2 => t2.m_retired_clauses) reattach_ternary (fun _ _ => by unfold reattach_ternary attach_ternary3; rfl) L u

theorem reatT_m_retired_ternary (L : List (Nat × Nat × Nat)) (u : St) :
    (List.foldl reattach_ternary u L).m_retired_ternary = u.m_retired_ternary :=
  foldl_proj_inv (fun t2 => t2.m_retired_ternary) reattach_ternary (fun _ _ => by unfold reattach_ternary attach_ternary3; rfl) L u

theorem reatT_m_num_tc1 (L : List (Nat × Nat × Nat)) (u : St) :
    (List.foldl reattach_ternary u L).m_num_tc1 = u.m_num_tc1 :=
  foldl_proj_inv (fun t2 => t2.m_num_tc1) reattach_ternary (fun _ _ => by unfold reattach_ternary attach_ternary3; rfl) L u

theorem reatT_m_trail_lim (L : List (Nat × Nat × Nat)) (u : St) :
    (List.foldl reattach_ternary u L).m_trail_lim = u.m_trail_lim :=
  foldl_proj_inv (fun t2 => t2.m_trail_lim) reattach_ternary (fun _ _ => by unfold reattach_ternary attach_ternary3; rfl) L u

theorem reatT_m_binary_trail_lim (L : List (Nat × Nat × Nat)) (u : St) :
    (List.foldl reattach_ternary u L).m_binary_trail_lim = u.m_binary_trail_lim :=
  foldl_proj_inv (fun t2 => t2.m_binary_trail_lim) reattach_ternary (fun _ _ => by unfold reattach_ternary attach_ternary3; rfl) L u

theorem reatT_m_qhead_lim (L : List (Nat × Nat × Nat)) (u : St) :
    (List.foldl reattach_ternary u L).m_qhead_lim = u.m_qhead_lim :=
  foldl_proj_inv (fun t2 => t2.m_qhead_lim) reattach_ternary (fun _ _ => by unfold reattach_ternary attach_ternary3; rfl) L u

theorem reatT_m_num_tc1_lim (L : List (Nat × Nat × Nat)) (u : St) :
    (List.foldl reattach_ternary u L).m_num_tc1_lim = u.m_num_tc1_lim :=
  foldl_proj_inv (fun t2 => t2.m_num_tc1_lim) reattach_ternary (fun _ _ => by unfold reattach_ternary attach_ternary3; rfl) L u

theorem reatT_m_retired_clause_lim (L : List (Nat × Nat × Nat)) (u : St) :
    (List.foldl reattach_ternary u L).m_retired_clause_lim = u.m_retired_clause_lim :=
  foldl_proj_inv (fun t2 => t2.m_retired_clause_lim) reattach_ternary (fun _ _ => by unfold reattach_ternary attach_ternary3; rfl) L u

theorem reatT_m_retired_ternary_lim (L : List (Nat × Nat × Nat)) (u : St) :
    (List.foldl reattach_ternary u L).m_retired_ternary_lim = u.m_retired_ternary_lim :=
  foldl_proj_inv (fun t2 => t2.m_retired_ternary_lim) reattach_ternary (fun _ _ => by unfold reattach_ternary attach_ternary3; rfl) L u


set_option maxHeartbeats 1000000 in
theorem pop_restore (s t : St)
    (htrail : ∃ d, t.m_trail = s.m_trail ++ d)
    (hbin : ∃ ps : List (Nat × Nat),
        t.m_binary = ps.foldl (fun B p => pair_push B p.1 p.2) s.m_binary ∧
        t.m_binary_trail = s.m_binary_trail ++ ps.map (fun p => negIdx p.1))
    (hrc : ∃ r, t.m_retired_clauses = s.m_retired_clauses ++ r)
    (hrt : ∃ w, t.m_retired_ternary = s.m_retired_ternary ++ w)
    (h1 : t.m_trail_lim = s.m_trail_lim ++ [s.m_trail.length])
    (h2 : t.m_binary_trail_lim = s.m_binary_trail_lim ++ [s.m_binary_trail.length])
    (h3 : t.m_qhead_lim = s.m_qhead_lim ++ [s.m_qhead])
    (h4 : t.m_num_tc1_lim = s.m_num_tc1_lim ++ [s.m_num_tc1])
    (h5 : t.m_retired_clause_lim = s.m_retired_clause_lim ++ [s.m_retired_clauses.length])
    (h6 : t.m_retired_ternary_lim = s.m_retired_ternary_lim ++ [s.m_retired_ternary.length]) :
    (pop t).m_trail = s.m_trail ∧ (pop t).m_binary = s.m_binary ∧
    (pop t).m_binary_trail = s.m_binary_trail ∧
    (pop t).m_retired_clauses = s.m_retired_clauses ∧
    (pop t).m_retired_ternary = s.m_retired_ternary ∧
    (pop t).m_qhead = s.m_qhead ∧ (pop t).m_num_tc1 = s.m_num_tc1 := by
  obtain ⟨d, hd⟩ := htrail
  obtain ⟨ps, hb1, hb2⟩ := hbin
  obtain ⟨r, hr⟩ := hrc
  obtain ⟨w2, hw2⟩ := hrt
  refine ⟨?_, ?_, ?_, ?_, ?_, ?_, ?_⟩ <;>
    simp only [pop, undoT_m_trail, undoT_m_binary, undoT_m_binary_trail, undoT_m_retired_clauses, undoT_m_retired_ternary, undoT_m_num_tc1, undoT_m_trail_lim, undoT_m_binary_trail_lim, undoT_m_qhead_lim, undoT_m_num_tc1_lim, undoT_m_retired_clause_lim, undoT_m_retired_ternary_lim, reatC_m_trail, reatC_m_binary, reatC_m_binary_trail, reatC_m_retired_clauses, reatC_m_retired_ternary, reatC_m_num_tc1, reatC_m_trail_lim, reatC_m_binary_trail_lim, reatC_m_qhead_lim, reatC_m_num_tc1_lim, reatC_m_retired_clause_lim, reatC_m_retired_ternary_lim, reatT_m_trail, reatT_m_binary, reatT_m_binary_trail, reatT_m_retired_clauses, reatT_m_retired_ternary, reatT_m_num_tc1, reatT_m_trail_lim, reatT_m_binary_trail_lim, reatT_m_qhead_lim, reatT_m_num_tc1_lim, reatT_m_retired_clause_lim, reatT_m_retired_ternary_lim,
      h1, h2, h3, h4, h5, h6, hd, hb1, hb2, hr, hw2,
      List.getLastD_concat, List.dropLast_concat, List.drop_left, List.take_left,
      del_undo]

/-- C3: push followed by its matching pop restores the trail, the binary
adjacency map and its trail, the retired clause and ternary lists, qhead and
the tc1 counter. -/
theorem C3_push_pop_restores (fuel : Nat) (s : St) (lit level : Nat) :
    (pop (push fuel s lit level)).m_trail = s.m_trail ∧
    (pop (push fuel s lit level)).m_binary = s.m_binary ∧
    (pop (push fuel s lit level)).m_binary_trail = s.m_binary_trail ∧
    (pop (push fuel s lit level)).m_retired_clauses = s.m_retired_clauses ∧
    (pop (push fuel s lit level)).m_retired_ternary = s.m_retired_ternary ∧
    (pop (push fuel s lit level)).m_qhead = s.m_qhead ∧
    (pop (push fuel s lit level)).m_num_tc1 = s.m_num_tc1 := by
  have hx : Ext
      { s with m_binary_trail_lim := s.m_binary_trail_lim ++ [s.m_binary_trail.length],
               m_trail_lim := s.m_trail_lim ++ [s.m_trail.length],
               m_num_tc1_lim := s.m_num_tc1_lim ++ [s.m_num_tc1],
               m_retired_clause_lim := s.m_retired_clause_lim ++ [s.m_retired_clauses.length],
               m_retired_ternary_lim := s.m_retired_ternary_lim ++ [s.m_retired_ternary.length],
               m_qhead_lim := s.m_qhead_lim ++ [s.m_qhead],
               m_level := level,
               m_assumptions := s.m_assumptions ++ [negIdx lit] }
      (propagate fuel (assign
        { s with m_binary_trail_lim := s.m_binary_trail_lim ++ [s.m_binary_trail.length],
                 m_trail_lim := s.m_trail_lim ++ [s.m_trail.length],
                 m_num_tc1_lim := s.m_num_tc1_lim ++ [s.m_num_tc1],
                 m_retired_clause_lim := s.m_retired_clause_lim ++ [s.m_retired_clauses.length],
                 m_retired_ternary_lim := s.m_retired_ternary_lim ++ [s.m_retired_ternary.length],
                 m_qhead_lim := s.m_qhead_lim ++ [s.m_qhead],
                 m_level := level,
                 m_assumptions := s.m_assumptions ++ [negIdx lit] } lit)) :=
    Ext_trans (Ext_assign _ lit) (Ext_propagate fuel _)
  obtain ⟨⟨d, hd⟩, ⟨ps, hb1, hb2⟩, ⟨r, hr⟩, ⟨w2, hw2⟩, e1, e2, e3, e4, e5, e6⟩ := hx
  exact pop_restore s (push fuel s lit level)
    ⟨d, hd⟩ ⟨ps, hb1, hb2⟩ ⟨r, hr⟩ ⟨w2, hw2⟩ e1 e2 e3 e4 e5 e6

theorem negIdx_negIdx (l : Nat) : negIdx (negIdx l) = l := by
  unfold negIdx
  split <;> split <;> omega

theorem negIdx_inj {a b : Nat} (h : negIdx a = negIdx b) : a = b := by
  have := congrArg negIdx h
  rwa [negIdx_negIdx, negIdx_negIdx] at this

theorem negIdx_lt {n l : Nat} (hn : n % 2 = 0) (h : l < n) : negIdx l < n := by
  unfold negIdx
  split <;> omega

theorem mem_of_getLast {α : Type} {l : List α} {a : α} (h : l.getLast? = some a) : a ∈ l := by
  induction l using List.reverseRecOn with
  | nil => simp at h
  | append_singleton xs x _ =>
    rw [List.getLast?_concat] at h
    simp only [Option.some.injEq] at h
    subst h
    exact List.mem_append_right xs (List.mem_singleton.mpr rfl)

theorem count_pair_push (B : BinMap) (u v y idx : Nat) :
    ((pair_push B u v) idx).count y =
      (B idx).count y + (if idx = negIdx u ∧ v = y then 1 else 0) +
        (if idx = negIdx v ∧ u = y then 1 else 0) := by
  unfold pair_push
  by_cases h1 : idx = negIdx v
  · subst h1
    rw [Function.update_same]
    by_cases h2 : negIdx v = negIdx u
    · rw [h2, Function.update_same]
      simp only [List.count_append, List.count_cons, List.count_nil, h2, true_and]
      by_cases hy1 : v = y <;> by_cases hy2 : u = y <;> simp [hy1, hy2] <;> omega
    · rw [Function.update_noteq h2]
      simp only [List.count_append, List.count_cons, List.count_nil, h2, false_and,
        if_false, true_and, ite_false]
      by_cases hy2 : u = y <;> simp [hy2] <;> omega
  · rw [Function.update_noteq h1]
    by_cases h2 : idx = negIdx u
    · subst h2
      rw [Function.update_same]
      simp only [List.count_append, List.count_cons, List.count_nil, h1, false_and,
        true_and, ite_false, if_false]
      by_cases hy1 : v = y <;> simp [hy1] <;> omega
    · rw [Function.update_noteq h2]
      simp [h1, h2]

theorem SymN_pair_push {n : Nat} {B : BinMap} (hs : SymN n B) (u v : Nat) :
    SymN n (pair_push B u v) := by
  intro x hx y hy
  rw [count_pair_push, count_pair_push, hs x hx y hy]
  have e1 : (negIdx x = negIdx u ∧ v = y) ↔ (negIdx y = negIdx v ∧ u = x) := by
    constructor
    · intro h
      obtain ⟨h1, h2⟩ := h
      subst h2
      exact ⟨rfl, (negIdx_inj h1).symm⟩
    · intro h
      obtain ⟨h1, h2⟩ := h
      subst h2
      exact ⟨rfl, (negIdx_inj h1).symm⟩
  have e2 : (negIdx x = negIdx v ∧ u = y) ↔ (negIdx y = negIdx u ∧ v = x) := by
    constructor
    · intro h
      obtain ⟨h1, h2⟩ := h
      subst h2
      exact ⟨rfl, (negIdx_inj h1).symm⟩
    · intro h
      obtain ⟨h1, h2⟩ := h
      subst h2
      exact ⟨rfl, (negIdx_inj h1).symm⟩
  simp only [e1, e2]
  omega

theorem SymN_add_binary {n : Nat} {s : St} (hs : SymN n s.m_binary) (u v : Nat) :
    SymN n (add_binary s u v).m_binary := by
  unfold add_binary
  split
  · exact hs
  · split
    · exact hs
    · exact SymN_pair_push hs u v

theorem add_binary_mono {s : St} {x i : Nat} (a b : Nat) (h : x ∈ s.m_binary i) :
    x ∈ (add_binary s a b).m_binary i := by
  unfold add_binary
  split
  · exact h
  · split
    · exact h
    · show x ∈ pair_push s.m_binary a b i
      unfold pair_push
      by_cases h1 : i = negIdx b
      · subst h1
        rw [Function.update_same]
        by_cases h2 : negIdx b = negIdx a
        · rw [h2, Function.update_same]
          exact List.mem_append_left _ (List.mem_append_left _ (h2 ▸ h))
        · rw [Function.update_noteq h2]
          exact List.mem_append_left _ h
      · rw [Function.update_noteq h1]
        by_cases h2 : i = negIdx a
        · subst h2
          rw [Function.update_same]
          exact List.mem_append_left _ h
        · rw [Function.update_noteq h2]
          exact h

theorem add_binary_mem {n : Nat} {s : St} (hn : n % 2 = 0) (u v : Nat)
    (hu : u < n) (hv : v < n) (hs : SymN n s.m_binary) (hne : negIdx u ≠ v) :
    v ∈ (add_binary s u v).m_binary (negIdx u) ∧
      u ∈ (add_binary s u v).m_binary (negIdx v) := by
  unfold add_binary
  split
  · next h => exact absurd h hne
  · split
    · next h =>
      have hv1 : v ∈ s.m_binary (negIdx u) := mem_of_getLast h
      refine ⟨hv1, ?_⟩
      have hcv : 0 < (s.m_binary (negIdx u)).count v := List.count_pos_iff.mpr hv1
      have heq := hs u hu v hv
      rw [heq] at hcv
      exact List.count_pos_iff.mp hcv
    · constructor
      · show v ∈ pair_push s.m_binary u v (negIdx u)
        simp only [pair_push]
        by_cases h1 : negIdx u = negIdx v
        · rw [h1, Function.update_same, ← h1, Function.update_same]
          exact List.mem_append_left _ (List.mem_append_right _ (List.mem_singleton.mpr rfl))
        · rw [Function.update_noteq h1, Function.update_same]
          exact List.mem_append_right _ (List.mem_singleton.mpr rfl)
      · show u ∈ pair_push s.m_binary u v (negIdx v)
        simp only [pair_push]
        rw [Function.update_same]
        exact List.mem_append_right _ (List.mem_singleton.mpr rfl)

theorem fold_mem_mono (ws : List Nat) (t : St) {x : Nat} (u : Nat) (i : Nat)
    (h : x ∈ t.m_binary i) :
    x ∈ ((ws.foldl (fun t2 l2 => add_binary t2 u l2) t).m_binary) i := by
  induction ws generalizing t with
  | nil => exact h
  | cons a rest ih => exact ih (add_binary t u a) (add_binary_mono u a h)

theorem wind_fold {n : Nat} (hn : n % 2 = 0) (lit : Nat) (hlit : lit < n) :
    ∀ (ws : List Nat) (t : St), SymN n t.m_binary → (∀ w ∈ ws, w < n) →
      SymN n ((ws.foldl (fun t2 l2 => add_binary t2 (negIdx lit) l2) t).m_binary) ∧
      (∀ w ∈ ws, w ≠ lit →
        w ∈ (ws.foldl (fun t2 l2 => add_binary t2 (negIdx lit) l2) t).m_binary lit ∧
        negIdx lit ∈
          (ws.foldl (fun t2 l2 => add_binary t2 (negIdx lit) l2) t).m_binary (negIdx w)) := by
  intro ws
  induction ws with
  | nil => intro t hsym hb; exact ⟨hsym, by simp⟩
  | cons a rest ih =>
    intro t hsym hb
    have ha : a < n := hb a (List.mem_cons_self a rest)
    have hsym1 : SymN n (add_binary t (negIdx lit) a).m_binary := SymN_add_binary hsym _ a
    obtain ⟨ihs, ihm⟩ := ih (add_binary t (negIdx lit) a) hsym1
      (fun w hw => hb w (List.mem_cons_of_mem a hw))
    refine ⟨ihs, ?_⟩
    intro w hw hwl
    rcases List.mem_cons.mp hw with he | hr
    · subst he
      have hne : negIdx (negIdx lit) ≠ w := by
        rw [negIdx_negIdx]; exact fun h => hwl h.symm
      obtain ⟨m1, m2⟩ := add_binary_mem hn (negIdx lit) w (negIdx_lt hn hlit) ha hsym hne
      rw [negIdx_negIdx] at m1
      constructor
      · exact fold_mem_mono rest _ _ _ m1
      · exact fold_mem_mono rest _ _ _ m2
    · exact ihm w hr hwl

/-- C4: pop_lookahead1 always empties the windfall stack; after a conflict it
adds no binaries; after a successful probe every windfall literal w becomes a
permanent binary (~lit or w), recorded in both adjacency directions. -/
theorem C4_pop_lookahead1_windfalls (n : Nat) (s : St) (lit : Nat) (hn : n % 2 = 0)
    (hlit : lit < n) (hsym : SymN n s.m_binary) (hws : ∀ w ∈ s.m_wstack, w < n) :
    (pop_lookahead1 s lit).m_wstack = [] ∧
    (s.m_inconsistent = true → (pop_lookahead1 s lit).m_binary = s.m_binary) ∧
    (s.m_inconsistent = false → ∀ w ∈ s.m_wstack, w ≠ lit →
      w ∈ (pop_lookahead1 s lit).m_binary lit ∧
      negIdx lit ∈ (pop_lookahead1 s lit).m_binary (negIdx w)) := by
  unfold pop_lookahead1
  dsimp only
  refine ⟨rfl, ?_, ?_⟩
  · intro h
    rw [h]
    simp
  · intro h w hw hwl
    rw [h]
    simp only [Bool.false_eq_true, if_false, ite_false]
    obtain ⟨_, hm⟩ := wind_fold hn lit hlit s.m_wstack
      { s with m_inconsistent := false, m_search_mode := Mode.searching } hsym hws
    exact hm w hw hwl

theorem C4_witness :
    (pop_lookahead1 { mk_state 2 with m_wstack := [2] } 0).m_wstack = [] ∧
    (({ mk_state 2 with m_wstack := [2] } : St).m_inconsistent = true →
      (pop_lookahead1 { mk_state 2 with m_wstack := [2] } 0).m_binary =
        ({ mk_state 2 with m_wstack := [2] } : St).m_binary) ∧
    (({ mk_state 2 with m_wstack := [2] } : St).m_inconsistent = false →
      ∀ w ∈ ({ mk_state 2 with m_wstack := [2] } : St).m_wstack, w ≠ 0 →
        w ∈ (pop_lookahead1 { mk_state 2 with m_wstack := [2] } 0).m_binary 0 ∧
        negIdx 0 ∈ (pop_lookahead1 { mk_state 2 with m_wstack := [2] } 0).m_binary (negIdx w)) :=
  C4_pop_lookahead1_windfalls 4 { mk_state 2 with m_wstack := [2] } 0 (by decide)
    (by decide) (by decide) (by decide)

/-- C6: add_binary skips tautologies and duplicated-back entries, preserves the
symmetric count invariant of the adjacency map, records both directions when it
does push, and del_binary removes both directions of the popped pair. -/
theorem C6_binary_symmetry (n : Nat) (s : St) (u v idx : Nat) (hn : n % 2 = 0)
    (hu : u < n) (hv : v < n) (hsym : SymN n s.m_binary) :
    (negIdx u = v → add_binary s u v = s) ∧
    ((s.m_binary (negIdx u)).getLast? = some v → add_binary s u v = s) ∧
    SymN n (add_binary s u v).m_binary ∧
    (negIdx u ≠ v → v ∈ (add_binary s u v).m_binary (negIdx u) ∧
      u ∈ (add_binary s u v).m_binary (negIdx v)) ∧
    (∀ l, (s.m_binary idx).getLast? = some l → idx ≠ negIdx l →
      (del_binary s idx).m_binary idx = (s.m_binary idx).dropLast ∧
      (del_binary s idx).m_binary (negIdx l) = (s.m_binary (negIdx l)).dropLast) := by
  refine ⟨?_, ?_, SymN_add_binary hsym u v, ?_, ?_⟩
  · intro h
    unfold add_binary
    rw [if_pos h]
  · intro h
    unfold add_binary
    split
    · rfl
    · rfl
  · exact fun h => add_binary_mem hn u v hu hv hsym h
  · intro l hgl hne
    unfold del_binary del_binary_map
    dsimp only
    have hld : (s.m_binary idx).getLastD 0 = l := by
      rw [List.getLastD_eq_getLast?, hgl]
      rfl
    rw [hld]
    constructor
    · rw [Function.update_noteq hne, Function.update_same]
    · rw [Function.update_same, Function.update_noteq (fun hh => hne hh.symm)]

theorem C6_witness : SymN 4 (add_binary (mk_state 2) 0 2).m_binary :=
  (C6_binary_symmetry 4 (mk_state 2) 0 2 0 (by decide) (by decide) (by decide)
    (by decide)).2.2.1


theorem undoT_m_inconsistent (L : List Nat) (u : St) :
    (List.foldl pop_undo_trail u L).m_inconsistent = u.m_inconsistent :=
  foldl_proj_inv (fun t2 => t2.m_inconsistent) pop_undo_trail (fun _ _ => rfl) L u

theorem reatC_m_inconsistent (L : List Nat) (u : St) :
    (List.foldl attach_clause u L).m_inconsistent = u.m_inconsistent :=
  foldl_proj_inv (fun t2 => t2.m_inconsistent) attach_clause
    (fun _ _ => by unfold attach_clause attach_ternary3; dsimp only; split <;> rfl) L u

theorem reatT_m_inconsistent (L : List (Nat × Nat × Nat)) (u : St) :
    (List.foldl reattach_ternary u L).m_inconsistent = u.m_inconsistent :=
  foldl_proj_inv (fun t2 => t2.m_inconsistent) reattach_ternary
    (fun _ _ => by unfold reattach_ternary attach_ternary3; rfl) L u


theorem setU_m_trail_lim (L : List Nat) (u : St) :
    (List.foldl set_undef u L).m_trail_lim = u.m_trail_lim :=
  foldl_proj_inv (fun t2 => t2.m_trail_lim) set_undef (fun _ _ => rfl) L u

theorem setU_m_binary_trail_lim (L : List Nat) (u : St) :
    (List.foldl set_undef u L).m_binary_trail_lim = u.m_binary_trail_lim :=
  foldl_proj_inv (fun t2 => t2.m_binary_trail_lim) set_undef (fun _ _ => rfl) L u

theorem setU_m_qhead_lim (L : List Nat) (u : St) :
    (List.foldl set_undef u L).m_qhead_lim = u.m_qhead_lim :=
  foldl_proj_inv (fun t2 => t2.m_qhead_lim) set_undef (fun _ _ => rfl) L u

theorem setU_m_num_tc1_lim (L : List Nat) (u : St) :
    (List.foldl set_undef u L).m_num_tc1_lim = u.m_num_tc1_lim :=
  foldl_proj_inv (fun t2 => t2.m_num_tc1_lim) set_undef (fun _ _ => rfl) L u

theorem setU_m_retired_clause_lim (L : List Nat) (u : St) :
    (List.foldl set_undef u L).m_retired_clause_lim = u.m_retired_clause_lim :=
  foldl_proj_inv (fun t2 => t2.m_retired_clause_lim) set_undef (fun _ _ => rfl) L u

theorem setU_m_retired_ternary_lim (L : List Nat) (u : St) :
    (List.foldl set_undef u L).m_retired_ternary_lim = u.m_retired_ternary_lim :=
  foldl_proj_inv (fun t2 => t2.m_retired_ternary_lim) set_undef (fun _ _ => rfl) L u


theorem pop_lims (s : St) :
    (pop s).m_trail_lim = s.m_trail_lim.dropLast ∧
    (pop s).m_binary_trail_lim = s.m_binary_trail_lim.dropLast ∧
    (pop s).m_qhead_lim = s.m_qhead_lim.dropLast ∧
    (pop s).m_num_tc1_lim = s.m_num_tc1_lim.dropLast ∧
    (pop s).m_retired_clause_lim = s.m_retired_clause_lim.dropLast ∧
    (pop s).m_retired_ternary_lim = s.m_retired_ternary_lim.dropLast := by
  refine ⟨?_, ?_, ?_, ?_, ?_, ?_⟩ <;> simp only [pop, undoT_m_trail, undoT_m_binary, undoT_m_binary_trail, undoT_m_retired_clauses, undoT_m_retired_ternary, undoT_m_num_tc1, undoT_m_trail_lim, undoT_m_binary_trail_lim, undoT_m_qhead_lim, undoT_m_num_tc1_lim, undoT_m_retired_clause_lim, undoT_m_retired_ternary_lim, reatC_m_trail, reatC_m_binary, reatC_m_binary_trail, reatC_m_retired_clauses, reatC_m_retired_ternary, reatC_m_num_tc1, reatC_m_trail_lim, reatC_m_binary_trail_lim, reatC_m_qhead_lim, reatC_m_num_tc1_lim, reatC_m_retired_clause_lim, reatC_m_retired_ternary_lim, reatT_m_trail, reatT_m_binary, reatT_m_binary_trail, reatT_m_retired_clauses, reatT_m_retired_ternary, reatT_m_num_tc1, reatT_m_trail_lim, reatT_m_binary_trail_lim, reatT_m_qhead_lim, reatT_m_num_tc1_lim, reatT_m_retired_clause_lim, reatT_m_retired_ternary_lim]

theorem wnb_frame_lims (s : St) :
    (reset_wnb_all (init_wnb s)).m_trail_lim = s.m_trail_lim ∧
    (reset_wnb_all (init_wnb s)).m_binary_trail_lim = s.m_binary_trail_lim ∧
    (reset_wnb_all (init_wnb s)).m_qhead_lim = s.m_qhead_lim ∧
    (reset_wnb_all (init_wnb s)).m_num_tc1_lim = s.m_num_tc1_lim ∧
    (reset_wnb_all (init_wnb s)).m_retired_clause_lim = s.m_retired_clause_lim ∧
    (reset_wnb_all (init_wnb s)).m_retired_ternary_lim = s.m_retired_ternary_lim := by
  refine ⟨?_, ?_, ?_, ?_, ?_, ?_⟩ <;>
    simp only [reset_wnb_all, init_wnb, setU_m_trail_lim, setU_m_binary_trail_lim,
      setU_m_qhead_lim, setU_m_num_tc1_lim, setU_m_retired_clause_lim,
      setU_m_retired_ternary_lim, List.dropLast_concat]

theorem push_lims (fuel : Nat) (s : St) (lit level : Nat) :
    (push fuel s lit level).m_trail_lim = s.m_trail_lim ++ [s.m_trail.length] ∧
    (push fuel s lit level).m_binary_trail_lim =
      s.m_binary_trail_lim ++ [s.m_binary_trail.length] ∧
    (push fuel s lit level).m_qhead_lim = s.m_qhead_lim ++ [s.m_qhead] ∧
    (push fuel s lit level).m_num_tc1_lim = s.m_num_tc1_lim ++ [s.m_num_tc1] ∧
    (push fuel s lit level).m_retired_clause_lim =
      s.m_retired_clause_lim ++ [s.m_retired_clauses.length] ∧
    (push fuel s lit level).m_retired_ternary_lim =
      s.m_retired_ternary_lim ++ [s.m_retired_ternary.length] := by
  have hx : Ext
      { s with m_binary_trail_lim := s.m_binary_trail_lim ++ [s.m_binary_trail.length],
               m_trail_lim := s.m_trail_lim ++ [s.m_trail.length],
               m_num_tc1_lim := s.m_num_tc1_lim ++ [s.m_num_tc1],
               m_retired_clause_lim := s.m_retired_clause_lim ++ [s.m_retired_clauses.length],
               m_retired_ternary_lim := s.m_retired_ternary_lim ++ [s.m_retired_ternary.length],
               m_qhead_lim := s.m_qhead_lim ++ [s.m_qhead],
               m_level := level,
               m_assumptions := s.m_assumptions ++ [negIdx lit] }
      (propagate fuel (assign
        { s with m_binary_trail_lim := s.m_binary_trail_lim ++ [s.m_binary_trail.length],
                 m_trail_lim := s.m_trail_lim ++ [s.m_trail.length],
                 m_num_tc1_lim := s.m_num_tc1_lim ++ [s.m_num_tc1],
                 m_retired_clause_lim := s.m_retired_clause_lim ++ [s.m_retired_clauses.length],
                 m_retired_ternary_lim := s.m_retired_ternary_lim ++ [s.m_retired_ternary.length],
                 m_qhead_lim := s.m_qhead_lim ++ [s.m_qhead],
                 m_level := level,
                 m_assumptions := s.m_assumptions ++ [negIdx lit] } lit)) :=
    Ext_trans (Ext_assign _ lit) (Ext_propagate fuel _)
  obtain ⟨_, _, _, _, e1, e2, e3, e4, e5, e6⟩ := hx
  exact ⟨e1, e2, e3, e4, e5, e6⟩

/-- C5 (amended): push and pop preserve the six-way scope-stack length
equality, and a full wnb frame (init_wnb then reset_wnb) restores all six scope
stacks. -/
theorem C5_scope_stack_discipline (s : St) (h : SixEq s) (fuel lit level : Nat) :
    SixEq (push fuel s lit level) ∧ SixEq (pop s) ∧ SixEq (reset_wnb_all (init_wnb s)) := by
  obtain ⟨q1, q2, q3, q4, q5⟩ := h
  obtain ⟨p1, p2, p3, p4, p5, p6⟩ := push_lims fuel s lit level
  obtain ⟨o1, o2, o3, o4, o5, o6⟩ := pop_lims s
  obtain ⟨w1, w2, w3, w4, w5, w6⟩ := wnb_frame_lims s
  refine ⟨⟨?_, ?_, ?_, ?_, ?_⟩, ⟨?_, ?_, ?_, ?_, ?_⟩, ⟨?_, ?_, ?_, ?_, ?_⟩⟩ <;>
    simp only [p1, p2, p3, p4, p5, p6, o1, o2, o3, o4, o5, o6, w1, w2, w3, w4, w5, w6,
      List.length_append, List.length_dropLast, List.length_cons, List.length_nil] <;>
    omega

theorem C5_witness :
    SixEq (push 5 (mk_state 1) 0 7) ∧ SixEq (pop (mk_state 1)) ∧
    SixEq (reset_wnb_all (init_wnb (mk_state 1))) :=
  C5_scope_stack_discipline (mk_state 1) ⟨rfl, rfl, rfl, rfl, rfl⟩ 5 0 7

theorem C5_wnb_frame_unbalanced :
    SixEq (mk_state 1) ∧ ¬ SixEq (init_wnb (mk_state 1)) :=
  ⟨⟨rfl, rfl, rfl, rfl, rfl⟩, fun h => absurd h.1 (by decide)⟩

/-- C7 (amended): an empty pop is only reported by the pop_warns diagnostic;
execution proceeds and still clears the conflict flag. -/
theorem C7_empty_pop_warns_and_proceeds (s : St) (h : s.m_assumptions = []) :
    pop_warns s = true ∧ (pop s).m_inconsistent = false := by
  constructor
  · simp [pop_warns, h]
  · simp only [pop, undoT_m_inconsistent, reatC_m_inconsistent, reatT_m_inconsistent]

theorem C7_witness : pop_warns (mk_state 1) = true ∧ (pop (mk_state 1)).m_inconsistent = false :=
  C7_empty_pop_warns_and_proceeds (mk_state 1) rfl

theorem C7_empty_pop_modifies_state :
    pop_warns { mk_state 1 with m_inconsistent := true } = true ∧
    (pop { mk_state 1 with m_inconsistent := true }).m_inconsistent = false ∧
    ({ mk_state 1 with m_inconsistent := true } : St).m_inconsistent = true :=
  ⟨rfl, rfl, rfl⟩

/-- C1 (amended): check_autarky unconditionally returns false, so with no
weighted new binaries update_wnb never promotes the literal: it returns the
state unchanged. -/
theorem C1_check_autarky_dead (fuel : Nat) (s : St) (l level : Nat) :
    check_autarky s l level = false ∧
    (s.m_weighted_new_binaries = 0 → update_wnb fuel s l level = s) := by
  refine ⟨rfl, ?_⟩
  intro h
  unfold update_wnb
  rw [if_pos h, if_pos (by simp [check_autarky])]

theorem C1_autarky_not_promoted :
    check_autarky_body c1cx 0 = true ∧ c1cx.m_weighted_new_binaries = 0 ∧
    get_wnb c1cx 0 = 0 ∧ c1cx.m_inconsistent = false ∧
    update_wnb 10 c1cx 0 1 = c1cx ∧ is_true c1cx 0 = false := by
  refine ⟨by decide, rfl, rfl, rfl, ?_, by decide⟩
  unfold update_wnb
  rw [if_pos (show c1cx.m_weighted_new_binaries = 0 from rfl),
    if_pos (by simp [check_autarky])]

/-- C2: the embedded init_model maps an unassigned variable to l_false (the
undef branch is dead code), while the spec's extraction maps it to l_undef. -/
theorem C2_init_model_drops_undef (s : St) (v : Nat) (h : is_undef s (2 * v) = true) :
    init_model_val s v = LB.lfalse ∧ init_model_val_spec s v = LB.lundef := by
  have hf : is_fixed s (2 * v) = false := by simpa [is_undef] using h
  have ht : is_true s (2 * v) = false := by simp [is_true, hf]
  constructor
  · simp [init_model_val, ht]
  · simp [init_model_val_spec, h]

theorem C2_witness :
    init_model_val (mk_state 1) 0 = LB.lfalse ∧
    init_model_val_spec (mk_state 1) 0 = LB.lundef :=
  C2_init_model_drops_undef (mk_state 1) 0 (by decide)

/-- C8: after inc_bstamp no literal is stamped with the current epoch, and on
wrap-around the table is zeroed and the epoch bumped twice (to 1). -/
theorem C8_inc_bstamp_fresh_epoch (s : St) (hb : ∀ l, s.m_bstamp l ≤ s.m_bstamp_id)
    (hid : s.m_bstamp_id < 2^32) :
    (∀ l, (inc_bstamp s).m_bstamp l ≠ (inc_bstamp s).m_bstamp_id) ∧
    (s.m_bstamp_id = 2^32 - 1 →
      (inc_bstamp s).m_bstamp_id = 1 ∧ ∀ l, (inc_bstamp s).m_bstamp l = 0) := by
  unfold inc_bstamp
  dsimp only
  by_cases hw : (s.m_bstamp_id + 1) % 2^32 = 0
  · rw [if_pos hw]
    refine ⟨fun l => ?_, fun _ => ⟨?_, fun l => rfl⟩⟩
    · show (0 : Nat) ≠ ((s.m_bstamp_id + 1) % 2^32 + 1) % 2^32
      rw [hw]
      decide
    · show ((s.m_bstamp_id + 1) % 2^32 + 1) % 2^32 = 1
      rw [hw]
      decide
  · rw [if_neg hw]
    have hlt : s.m_bstamp_id + 1 < 2 ^ 32 := by
      rcases Nat.lt_or_ge (s.m_bstamp_id + 1) (2 ^ 32) with h2 | h2
      · exact h2
      · have he : s.m_bstamp_id + 1 = 2 ^ 32 := by omega
        rw [he, Nat.mod_self] at hw
        exact absurd rfl hw
    constructor
    · intro l
      dsimp only
      rw [Nat.mod_eq_of_lt hlt]
      have := hb l
      omega
    · intro hmax
      exfalso
      apply hw
      rw [hmax]
      decide

theorem C8_witness :
    (∀ l, (inc_bstamp (mk_state 1)).m_bstamp l ≠ (inc_bstamp (mk_state 1)).m_bstamp_id) ∧
    ((mk_state 1 : St).m_bstamp_id = 2^32 - 1 →
      (inc_bstamp (mk_state 1)).m_bstamp_id = 1 ∧
      ∀ l, (inc_bstamp (mk_state 1)).m_bstamp l = 0) :=
  C8_inc_bstamp_fresh_epoch (mk_state 1) (fun _ => Nat.le_refl 0) (by decide)

/-- C10: the h_scores normalisation denominator is never zero (0 is replaced by
1/10000), and every l_score is capped at max_score. -/
theorem C10_h_scores_total (s : St) (h : Nat → Rat) (l : Nat) (f sq af : Rat) :
    h_scores_denom s h ≠ 0 ∧ l_score s l h f sq af ≤ s.m_config.m_max_score := by
  constructor
  · unfold h_scores_denom
    dsimp only
    split
    · norm_num
    · next hne => exact hne
  · unfold l_score
    dsimp only
    exact min_le_left _ _

theorem getD_set_self {a : Type} {l : List a} {i : Nat} (h : i < l.length) (x d : a) :
    (l.set i x).getD i d = x := by
  induction l generalizing i with
  | nil => simp at h
  | cons y ys ih =>
    cases i with
    | zero => simp [List.getD]
    | succ j => simp only [List.set, List.getD_cons_succ]; exact ih (by simpa using h) 

theorem getD_set_ne {a : Type} {l : List a} {i j : Nat} (h : i ≠ j) (x d : a) :
    (l.set i x).getD j d = l.getD j d := by
  induction l generalizing i j with
  | nil => simp [List.getD]
  | cons y ys ih =>
    cases i with
    | zero => cases j with
      | zero => exact absurd rfl h
      | succ k => simp [List.getD]
    | succ m => cases j with
      | zero => simp [List.getD]
      | succ k => simp only [List.set, List.getD_cons_succ]; exact @ih m k (by omega)

set_option maxRecDepth 16000 in
set_option maxHeartbeats 1600000 in
theorem hs_pass (s : St) (hi hpi : Nat)
    (hfv : s.m_freevars = [0, 1])
    (hb0 : s.m_binary 0 = [3,2]) (hb1 : s.m_binary 1 = [2,3])
    (hb2 : s.m_binary 2 = [1,0]) (hb3 : s.m_binary 3 = [0,1])
    (hw0 : s.m_watches 0 = []) (hw1 : s.m_watches 1 = [])
    (hw2 : s.m_watches 2 = []) (hw3 : s.m_watches 3 = [])
    (hlev : s.m_level = c_fixed_truth) (hst : s.m_stamp = fun _ => 0)
    (hlen : hpi < s.m_H.length) (c : Rat)
    (hH0 : (s.m_H.getD hi (fun _ => 0)) 0 = c) (hH1 : (s.m_H.getD hi (fun _ => 0)) 1 = c)
    (hH2 : (s.m_H.getD hi (fun _ => 0)) 2 = c) (hH3 : (s.m_H.getD hi (fun _ => 0)) 3 = c) :
    ((h_scores s hi hpi).m_H.getD hpi (fun _ => 0)) 1 =
      ((h_scores s hi hpi).m_H.getD hpi (fun _ => 0)) 0 ∧
    ((h_scores s hi hpi).m_H.getD hpi (fun _ => 0)) 2 =
      ((h_scores s hi hpi).m_H.getD hpi (fun _ => 0)) 0 ∧
    ((h_scores s hi hpi).m_H.getD hpi (fun _ => 0)) 3 =
      ((h_scores s hi hpi).m_H.getD hpi (fun _ => 0)) 0 ∧
    (h_scores s hi hpi).m_rating 0 =
      ((h_scores s hi hpi).m_H.getD hpi (fun _ => 0)) 0 *
        ((h_scores s hi hpi).m_H.getD hpi (fun _ => 0)) 0 ∧
    (h_scores s hi hpi).m_rating 1 =
      ((h_scores s hi hpi).m_H.getD hpi (fun _ => 0)) 0 *
        ((h_scores s hi hpi).m_H.getD hpi (fun _ => 0)) 0 ∧
    (h_scores s hi hpi).m_freevars = [0, 1] ∧
    (h_scores s hi hpi).m_binary 0 = [3,2] ∧
    (h_scores s hi hpi).m_binary 1 = [2,3] ∧
    (h_scores s hi hpi).m_binary 2 = [1,0] ∧
    (h_scores s hi hpi).m_binary 3 = [0,1] ∧
    (h_scores s hi hpi).m_watches 0 = [] ∧
    (h_scores s hi hpi).m_watches 1 = [] ∧
    (h_scores s hi hpi).m_watches 2 = [] ∧
    (h_scores s hi hpi).m_watches 3 = [] ∧
    (h_scores s hi hpi).m_level = c_fixed_truth ∧
    (h_scores s hi hpi).m_stamp = (fun _ => 0) ∧
    (h_scores s hi hpi).m_H.length = s.m_H.length ∧
    (∀ j, j ≠ hpi →
      (h_scores s hi hpi).m_H.getD j (fun _ => 0) = s.m_H.getD j (fun _ => 0)) := by
  have pres : ∀ j, j ≠ hpi →
      (h_scores s hi hpi).m_H.getD j (fun _ => 0) = s.m_H.getD j (fun _ => 0) := by
    intro j hj
    simp only [h_scores, hfv, List.foldl_cons, List.foldl_nil]
    rw [getD_set_ne (Ne.symm hj), getD_set_ne (Ne.symm hj)]
  refine ⟨?_, ?_, ?_, ?_, ?_, ?_, ?_, ?_, ?_, ?_, ?_, ?_, ?_, ?_, ?_, ?_, ?_, pres⟩ <;>
    simp only [h_scores, l_score, h_scores_denom, is_undef, is_fixed, varOf, negIdx,
      c_fixed_truth,
      hfv, hb0, hb1, hb2, hb3, hw0, hw1, hw2, hw3, hlev, hst, hH0, hH1, hH2, hH3, hlen,
      getD_set_self, List.length_set,
      List.foldl_cons, List.foldl_nil,
      Function.update_apply,
      Nat.reduceAdd, Nat.reduceSub, Nat.reduceMul, Nat.reducePow, Nat.reduceMod,
      Nat.reduceDiv, Nat.reduceEqDiff, Nat.reduceLT, Nat.reduceLeDiff, Nat.reduceBEq,
      reduceIte, reduceDIte, reduceCtorEq,
      lt_self_iff_false, ite_true, ite_false, and_true, true_and, and_false, false_and,
      not_true, not_false_iff, beq_iff_eq, beq_self_eq_true,
      decide_eq_true_eq, Bool.not_true, Bool.not_false, if_true, if_false]


theorem c9_rating_eq : c9S4.m_rating 1 = c9S4.m_rating 0 := by
  have e2 : c9S4.m_rating = (init_pre_selection c9S3 0).m_rating := rfl
  have e3 : init_pre_selection c9S3 0 =
      { h_scores (h_scores (h_scores (h_scores (h_scores (ensure_H c9S3 2) 0 1) 1 2) 2 0) 1 2) 2 0
        with m_heur := 1 } := by
    simp only [init_pre_selection, Nat.reduceLeDiff, reduceIte, if_true]
  have hfv : (ensure_H c9S3 2).m_freevars = [0,1] := rfl
  have hb0 : (ensure_H c9S3 2).m_binary 0 = [3,2] := rfl
  have hb1 : (ensure_H c9S3 2).m_binary 1 = [2,3] := rfl
  have hb2 : (ensure_H c9S3 2).m_binary 2 = [1,0] := rfl
  have hb3 : (ensure_H c9S3 2).m_binary 3 = [0,1] := rfl
  have hw0 : (ensure_H c9S3 2).m_watches 0 = [] := rfl
  have hw1 : (ensure_H c9S3 2).m_watches 1 = [] := rfl
  have hw2 : (ensure_H c9S3 2).m_watches 2 = [] := rfl
  have hw3 : (ensure_H c9S3 2).m_watches 3 = [] := rfl
  have hlev : (ensure_H c9S3 2).m_level = c_fixed_truth := rfl
  have hst : (ensure_H c9S3 2).m_stamp = (fun _ => 0) := rfl
  have hlen0 : (ensure_H c9S3 2).m_H.length = 3 := rfl
  have hz0 : ((ensure_H c9S3 2).m_H.getD 0 (fun _ => 0)) 0 = 0 := rfl
  have hz1 : ((ensure_H c9S3 2).m_H.getD 0 (fun _ => 0)) 1 = 0 := rfl
  have hz2 : ((ensure_H c9S3 2).m_H.getD 0 (fun _ => 0)) 2 = 0 := rfl
  have hz3 : ((ensure_H c9S3 2).m_H.getD 0 (fun _ => 0)) 3 = 0 := rfl
  obtain ⟨aH1, aH2, aH3, aR0, aR1, aFv, aB0, aB1, aB2, aB3, aW0, aW1, aW2, aW3, aLev, aSt,
      aLen, aPres⟩ :=
    hs_pass (ensure_H c9S3 2) 0 1 hfv hb0 hb1 hb2 hb3 hw0 hw1 hw2 hw3 hlev hst
      (by omega) 0 hz0 hz1 hz2 hz3
  obtain ⟨bH1, bH2, bH3, bR0, bR1, bFv, bB0, bB1, bB2, bB3, bW0, bW1, bW2, bW3, bLev, bSt,
      bLen, bPres⟩ :=
    hs_pass (h_scores (ensure_H c9S3 2) 0 1) 1 2 aFv aB0 aB1 aB2 aB3 aW0 aW1 aW2 aW3 aLev aSt
      (by rw [aLen]; omega)
      (((h_scores (ensure_H c9S3 2) 0 1).m_H.getD 1 (fun _ => 0)) 0) rfl aH1 aH2 aH3
  obtain ⟨cH1, cH2, cH3, cR0, cR1, cFv, cB0, cB1, cB2, cB3, cW0, cW1, cW2, cW3, cLev, cSt,
      cLen, cPres⟩ :=
    hs_pass (h_scores (h_scores (ensure_H c9S3 2) 0 1) 1 2) 2 0 bFv bB0 bB1 bB2 bB3
      bW0 bW1 bW2 bW3 bLev bSt (by rw [bLen, aLen]; omega)
      (((h_scores (h_scores (ensure_H c9S3 2) 0 1) 1 2).m_H.getD 2 (fun _ => 0)) 0)
      rfl bH1 bH2 bH3
  have dIn : (h_scores (h_scores (h_scores (ensure_H c9S3 2) 0 1) 1 2) 2 0).m_H.getD 1
      (fun _ => 0) = (h_scores (ensure_H c9S3 2) 0 1).m_H.getD 1 (fun _ => 0) := by
    rw [cPres 1 (by omega), bPres 1 (by omega)]
  obtain ⟨dH1, dH2, dH3, dR0, dR1, dFv, dB0, dB1, dB2, dB3, dW0, dW1, dW2, dW3, dLev, dSt,
      dLen, dPres⟩ :=
    hs_pass (h_scores (h_scores (h_scores (ensure_H c9S3 2) 0 1) 1 2) 2 0) 1 2 cFv
      cB0 cB1 cB2 cB3 cW0 cW1 cW2 cW3 cLev cSt (by rw [cLen, bLen, aLen]; omega)
      (((h_scores (ensure_H c9S3 2) 0 1).m_H.getD 1 (fun _ => 0)) 0)
      (by rw [dIn]) (by rw [dIn]; exact aH1) (by rw [dIn]; exact aH2) (by rw [dIn]; exact aH3)
  obtain ⟨eH1, eH2, eH3, eR0, eR1, eFv, eB0, eB1, eB2, eB3, eW0, eW1, eW2, eW3, eLev, eSt,
      eLen, ePres⟩ :=
    hs_pass (h_scores (h_scores (h_scores (h_scores (ensure_H c9S3 2) 0 1) 1 2) 2 0) 1 2) 2 0
      dFv dB0 dB1 dB2 dB3 dW0 dW1 dW2 dW3 dLev dSt
      (by rw [dLen, cLen, bLen, aLen]; omega)
      (((h_scores (h_scores (h_scores (h_scores (ensure_H c9S3 2) 0 1) 1 2) 2 0) 1 2).m_H.getD 2
        (fun _ => 0)) 0) rfl dH1 dH2 dH3
  rw [e2, e3]
  show (h_scores (h_scores (h_scores (h_scores (h_scores (ensure_H c9S3 2) 0 1) 1 2) 2 0) 1 2)
      2 0).m_rating 1 =
    (h_scores (h_scores (h_scores (h_scores (h_scores (ensure_H c9S3 2) 0 1) 1 2) 2 0) 1 2)
      2 0).m_rating 0
  rw [eR0, eR1]

theorem c9S2_inc : c9S2.m_inconsistent = false := rfl

theorem c9_sel : select { c9S2 with m_lookahead := [] }
    (scope_lvl { c9S2 with m_lookahead := [] }) = (true, c9S4) := rfl

theorem c9S4_b0 : c9S4.m_binary 0 = [3,2] := rfl
theorem c9S4_b1 : c9S4.m_binary 1 = [2,3] := rfl
theorem c9S4_b2 : c9S4.m_binary 2 = [1,0] := rfl
theorem c9S4_b3 : c9S4.m_binary 3 = [0,1] := rfl
theorem c9S4_id : c9S4.m_bstamp_id = 0 := rfl
theorem c9S4_inc : c9S4.m_inconsistent = false := rfl
theorem c9S4_la : c9S4.m_lookahead = [] := rfl
theorem c9S4_cand : c9S4.m_candidates = [(0, c9S4.m_rating 0), (1, c9S4.m_rating 1)] := rfl

theorem getLastD_pair (a b d : Nat) : [a,b].getLastD d = b := rfl
theorem getLastD_one (a d : Nat) : [a].getLastD d = a := rfl
theorem dropLast_pair (a b : Nat) : [a,b].dropLast = [a] := rfl
theorem dropLast_one (a : Nat) : [a].dropLast = [] := rfl
theorem isEmpty_nil : ([] : List Nat).isEmpty = true := rfl
theorem isEmpty_cons (a : Nat) (l : List Nat) : (a :: l).isEmpty = false := rfl

set_option maxRecDepth 16000 in
set_option maxHeartbeats 4000000 in
theorem scc_probe (s : St) (q : Rat)
    (hb0 : s.m_binary 0 = [3,2]) (hb1 : s.m_binary 1 = [2,3])
    (hb2 : s.m_binary 2 = [1,0]) (hb3 : s.m_binary 3 = [0,1])
    (hc : s.m_candidates = [(0, q), (1, q)])
    (hid : s.m_bstamp_id = 0) (hinc : s.m_inconsistent = false)
    (hr0 : s.m_rating 0 = q) (hr1 : s.m_rating 1 = q) :
    (get_scc_main s 48).m_inconsistent = true ∧
    (get_scc_main s 48).m_lookahead = s.m_lookahead := by
  obtain ⟨A, hA, ha0, ha1, ha2, ha3, hd0, hd1, hd2, hd3, hcnt, hact, hstl, hai, hac, har0, har1, hla⟩ :
      ∃ t, init_scc s = t ∧ t.m_arcs 0 = [3,2] ∧ t.m_arcs 1 = [2,3] ∧ t.m_arcs 2 = [0,1] ∧
        t.m_arcs 3 = [0,1] ∧ t.m_dfs 0 = {} ∧ t.m_dfs 1 = {} ∧ t.m_dfs 2 = {} ∧ t.m_dfs 3 = {} ∧
        t.m_rank_counter = 0 ∧ t.m_active = none ∧ t.m_settled = none ∧
        t.m_inconsistent = false ∧ t.m_candidates = [(0, q), (1, q)] ∧
        t.m_rating 0 = q ∧ t.m_rating 1 = q ∧ t.m_lookahead = s.m_lookahead := by
    refine ⟨_, rfl, ?_, ?_, ?_, ?_, ?_, ?_, ?_, ?_, ?_, ?_, ?_, ?_, ?_, ?_, ?_, ?_⟩ <;>
      simp [init_scc, inc_bstamp, init_dfs_info, set_bstamp, init_arcs, add_arc,
            is_stamped, negIdx, Function.update_apply, hb0, hb1, hb2, hb3, hc, hid, hinc, hr0, hr1]
  obtain ⟨B, hB⟩ : ∃ t, get_scc_lit A 0 48 = t := ⟨_, rfl⟩
  have hf : B.m_inconsistent = true ∧ (B.m_dfs 1).m_rank = 3 ∧ B.m_lookahead = s.m_lookahead := by
    rw [← hB]
    simp only [get_scc_lit]
    try rw [dfs_loop]
    try simp only [dfs_step, activate_scc,
        found_scc, found_scc_loop, set_rank, set_parent, get_parent, set_min, set_link, get_min,
        get_rank, get_rank_o, get_link, get_rating, get_vcomp, set_vcomp, set_conflict,
        has_arc, pop_arc, negIdx, varOf, uintMax, Function.update_apply,
        ha0, ha1, ha2, ha3, hd0, hd1, hd2, hd3, hcnt, hact, hstl, hai, har0, har1, hla,
        List.foldl_cons, List.foldl_nil, List.map_cons, List.map_nil,
        getLastD_pair, getLastD_one, dropLast_pair, dropLast_one, isEmpty_nil, isEmpty_cons,
        Nat.reduceAdd, Nat.reduceSub, Nat.reduceMul, Nat.reducePow, Nat.reduceMod,
        Nat.reduceEqDiff, Nat.reduceLT, Nat.reduceLeDiff, Nat.reduceBEq,
        reduceIte, reduceDIte, reduceCtorEq,
        lt_self_iff_false, Nat.lt_irrefl, ite_true, ite_false, and_true, true_and,
        and_false, false_and, not_true, not_false_iff, beq_iff_eq, beq_self_eq_true,
        Option.getD_some, Option.getD_none, Option.some.injEq, ne_eq, not_false_eq_true,
        decide_eq_true_eq, Bool.not_true, Bool.not_false, if_true, if_false]
    try rw [dfs_loop]
    try simp only [dfs_step, activate_scc,
        found_scc, found_scc_loop, set_rank, set_parent, get_parent, set_min, set_link, get_min,
        get_rank, get_rank_o, get_link, get_rating, get_vcomp, set_vcomp, set_conflict,
        has_arc, pop_arc, negIdx, varOf, uintMax, Function.update_apply,
        ha0, ha1, ha2, ha3, hd0, hd1, hd2, hd3, hcnt, hact, hstl, hai, har0, har1, hla,
        List.foldl_cons, List.foldl_nil, List.map_cons, List.map_nil,
        getLastD_pair, getLastD_one, dropLast_pair, dropLast_one, isEmpty_nil, isEmpty_cons,
        Nat.reduceAdd, Nat.reduceSub, Nat.reduceMul, Nat.reducePow, Nat.reduceMod,
        Nat.reduceEqDiff, Nat.reduceLT, Nat.reduceLeDiff, Nat.reduceBEq,
        reduceIte, reduceDIte, reduceCtorEq,
        lt_self_iff_false, Nat.lt_irrefl, ite_true, ite_false, and_true, true_and,
        and_false, false_and, not_true, not_false_iff, beq_iff_eq, beq_self_eq_true,
        Option.getD_some, Option.getD_none, Option.some.injEq, ne_eq, not_false_eq_true,
        decide_eq_true_eq, Bool.not_true, Bool.not_false, if_true, if_false]
    try rw [dfs_loop]
    try simp only [dfs_step, activate_scc,
        found_scc, found_scc_loop, set_rank, set_parent, get_parent, set_min, set_link, get_min,
        get_rank, get_rank_o, get_link, get_rating, get_vcomp, set_vcomp, set_conflict,
        has_arc, pop_arc, negIdx, varOf, uintMax, Function.update_apply,
        ha0, ha1, ha2, ha3, hd0, hd1, hd2, hd3, hcnt, hact, hstl, hai, har0, har1, hla,
        List.foldl_cons, List.foldl_nil, List.map_cons, List.map_nil,
        getLastD_pair, getLastD_one, dropLast_pair, dropLast_one, isEmpty_nil, isEmpty_cons,
        Nat.reduceAdd, Nat.reduceSub, Nat.reduceMul, Nat.reducePow, Nat.reduceMod,
        Nat.reduceEqDiff, Nat.reduceLT, Nat.reduceLeDiff, Nat.reduceBEq,
        reduceIte, reduceDIte, reduceCtorEq,
        lt_self_iff_false, Nat.lt_irrefl, ite_true, ite_false, and_true, true_and,
        and_false, false_and, not_true, not_false_iff, beq_iff_eq, beq_self_eq_true,
        Option.getD_some, Option.getD_none, Option.some.injEq, ne_eq, not_false_eq_true,
        decide_eq_true_eq, Bool.not_true, Bool.not_false, if_true, if_false]
    try rw [dfs_loop]
    try simp only [dfs_step, activate_scc,
        found_scc, found_scc_loop, set_rank, set_parent, get_parent, set_min, set_link, get_min,
        get_rank, get_rank_o, get_link, get_rating, get_vcomp, set_vcomp, set_conflict,
        has_arc, pop_arc, negIdx, varOf, uintMax, Function.update_apply,
        ha0, ha1, ha2, ha3, hd0, hd1, hd2, hd3, hcnt, hact, hstl, hai, har0, har1, hla,
        List.foldl_cons, List.foldl_nil, List.map_cons, List.map_nil,
        getLastD_pair, getLastD_one, dropLast_pair, dropLast_one, isEmpty_nil, isEmpty_cons,
        Nat.reduceAdd, Nat.reduceSub, Nat.reduceMul, Nat.reducePow, Nat.reduceMod,
        Nat.reduceEqDiff, Nat.reduceLT, Nat.reduceLeDiff, Nat.reduceBEq,
        reduceIte, reduceDIte, reduceCtorEq,
        lt_self_iff_false, Nat.lt_irrefl, ite_true, ite_false, and_true, true_and,
        and_false, false_and, not_true, not_false_iff, beq_iff_eq, beq_self_eq_true,
        Option.getD_some, Option.getD_none, Option.some.injEq, ne_eq, not_false_eq_true,
        decide_eq_true_eq, Bool.not_true, Bool.not_false, if_true, if_false]
    try rw [dfs_loop]
    try simp only [dfs_step, activate_scc,
        found_scc, found_scc_loop, set_rank, set_parent, get_parent, set_min, set_link, get_min,
        get_rank, get_rank_o, get_link, get_rating, get_vcomp, set_vcomp, set_conflict,
        has_arc, pop_arc, negIdx, varOf, uintMax, Function.update_apply,
        ha0, ha1, ha2, ha3, hd0, hd1, hd2, hd3, hcnt, hact, hstl, hai, har0, har1, hla,
        List.foldl_cons, List.foldl_nil, List.map_cons, List.map_nil,
        getLastD_pair, getLastD_one, dropLast_pair, dropLast_one, isEmpty_nil, isEmpty_cons,
        Nat.reduceAdd, Nat.reduceSub, Nat.reduceMul, Nat.reducePow, Nat.reduceMod,
        Nat.reduceEqDiff, Nat.reduceLT, Nat.reduceLeDiff, Nat.reduceBEq,
        reduceIte, reduceDIte, reduceCtorEq,
        lt_self_iff_false, Nat.lt_irrefl, ite_true, ite_false, and_true, true_and,
        and_false, false_and, not_true, not_false_iff, beq_iff_eq, beq_self_eq_true,
        Option.getD_some, Option.getD_none, Option.some.injEq, ne_eq, not_false_eq_true,
        decide_eq_true_eq, Bool.not_true, Bool.not_false, if_true, if_false]
    try rw [dfs_loop]
    try simp only [dfs_step, activate_scc,
        found_scc, found_scc_loop, set_rank, set_parent, get_parent, set_min, set_link, get_min,
        get_rank, get_rank_o, get_link, get_rating, get_vcomp, set_vcomp, set_conflict,
        has_arc, pop_arc, negIdx, varOf, uintMax, Function.update_apply,
        ha0, ha1, ha2, ha3, hd0, hd1, hd2, hd3, hcnt, hact, hstl, hai, har0, har1, hla,
        List.foldl_cons, List.foldl_nil, List.map_cons, List.map_nil,
        getLastD_pair, getLastD_one, dropLast_pair, dropLast_one, isEmpty_nil, isEmpty_cons,
        Nat.reduceAdd, Nat.reduceSub, Nat.reduceMul, Nat.reducePow, Nat.reduceMod,
        Nat.reduceEqDiff, Nat.reduceLT, Nat.reduceLeDiff, Nat.reduceBEq,
        reduceIte, reduceDIte, reduceCtorEq,
        lt_self_iff_false, Nat.lt_irrefl, ite_true, ite_false, and_true, true_and,
        and_false, false_and, not_true, not_false_iff, beq_iff_eq, beq_self_eq_true,
        Option.getD_some, Option.getD_none, Option.some.injEq, ne_eq, not_false_eq_true,
        decide_eq_true_eq, Bool.not_true, Bool.not_false, if_true, if_false]
    try rw [dfs_loop]
    try simp only [dfs_step, activate_scc,
        found_scc, found_scc_loop, set_rank, set_parent, get_parent, set_min, set_link, get_min,
        get_rank, get_rank_o, get_link, get_rating, get_vcomp, set_vcomp, set_conflict,
        has_arc, pop_arc, negIdx, varOf, uintMax, Function.update_apply,
        ha0, ha1, ha2, ha3, hd0, hd1, hd2, hd3, hcnt, hact, hstl, hai, har0, har1, hla,
        List.foldl_cons, List.foldl_nil, List.map_cons, List.map_nil,
        getLastD_pair, getLastD_one, dropLast_pair, dropLast_one, isEmpty_nil, isEmpty_cons,
        Nat.reduceAdd, Nat.reduceSub, Nat.reduceMul, Nat.reducePow, Nat.reduceMod,
        Nat.reduceEqDiff, Nat.reduceLT, Nat.reduceLeDiff, Nat.reduceBEq,
        reduceIte, reduceDIte, reduceCtorEq,
        lt_self_iff_false, Nat.lt_irrefl, ite_true, ite_false, and_true, true_and,
        and_false, false_and, not_true, not_false_iff, beq_iff_eq, beq_self_eq_true,
        Option.getD_some, Option.getD_none, Option.some.injEq, ne_eq, not_false_eq_true,
        decide_eq_true_eq, Bool.not_true, Bool.not_false, if_true, if_false]
    try rw [dfs_loop]
    try simp only [dfs_step, activate_scc,
        found_scc, found_scc_loop, set_rank, set_parent, get_parent, set_min, set_link, get_min,
        get_rank, get_rank_o, get_link, get_rating, get_vcomp, set_vcomp, set_conflict,
        has_arc, pop_arc, negIdx, varOf, uintMax, Function.update_apply,
        ha0, ha1, ha2, ha3, hd0, hd1, hd2, hd3, hcnt, hact, hstl, hai, har0, har1, hla,
        List.foldl_cons, List.foldl_nil, List.map_cons, List.map_nil,
        getLastD_pair, getLastD_one, dropLast_pair, dropLast_one, isEmpty_nil, isEmpty_cons,
        Nat.reduceAdd, Nat.reduceSub, Nat.reduceMul, Nat.reducePow, Nat.reduceMod,
        Nat.reduceEqDiff, Nat.reduceLT, Nat.reduceLeDiff, Nat.reduceBEq,
        reduceIte, reduceDIte, reduceCtorEq,
        lt_self_iff_false, Nat.lt_irrefl, ite_true, ite_false, and_true, true_and,
        and_false, false_and, not_true, not_false_iff, beq_iff_eq, beq_self_eq_true,
        Option.getD_some, Option.getD_none, Option.some.injEq, ne_eq, not_false_eq_true,
        decide_eq_true_eq, Bool.not_true, Bool.not_false, if_true, if_false]
    try rw [dfs_loop]
    try simp only [dfs_step, activate_scc,
        found_scc, found_scc_loop, set_rank, set_parent, get_parent, set_min, set_link, get_min,
        get_rank, get_rank_o, get_link, get_rating, get_vcomp, set_vcomp, set_conflict,
        has_arc, pop_arc, negIdx, varOf, uintMax, Function.update_apply,
        ha0, ha1, ha2, ha3, hd0, hd1, hd2, hd3, hcnt, hact, hstl, hai, har0, har1, hla,
        List.foldl_cons, List.foldl_nil, List.map_cons, List.map_nil,
        getLastD_pair, getLastD_one, dropLast_pair, dropLast_one, isEmpty_nil, isEmpty_cons,
        Nat.reduceAdd, Nat.reduceSub, Nat.reduceMul, Nat.reducePow, Nat.reduceMod,
        Nat.reduceEqDiff, Nat.reduceLT, Nat.reduceLeDiff, Nat.reduceBEq,
        reduceIte, reduceDIte, reduceCtorEq,
        lt_self_iff_false, Nat.lt_irrefl, ite_true, ite_false, and_true, true_and,
        and_false, false_and, not_true, not_false_iff, beq_iff_eq, beq_self_eq_true,
        Option.getD_some, Option.getD_none, Option.some.injEq, ne_eq, not_false_eq_true,
        decide_eq_true_eq, Bool.not_true, Bool.not_false, if_true, if_false]
    try rw [dfs_loop]
    try simp only [dfs_step, activate_scc,
        found_scc, found_scc_loop, set_rank, set_parent, get_parent, set_min, set_link, get_min,
        get_rank, get_rank_o, get_link, get_rating, get_vcomp, set_vcomp, set_conflict,
        has_arc, pop_arc, negIdx, varOf, uintMax, Function.update_apply,
        ha0, ha1, ha2, ha3, hd0, hd1, hd2, hd3, hcnt, hact, hstl, hai, har0, har1, hla,
        List.foldl_cons, List.foldl_nil, List.map_cons, List.map_nil,
        getLastD_pair, getLastD_one, dropLast_pair, dropLast_one, isEmpty_nil, isEmpty_cons,
        Nat.reduceAdd, Nat.reduceSub, Nat.reduceMul, Nat.reducePow, Nat.reduceMod,
        Nat.reduceEqDiff, Nat.reduceLT, Nat.reduceLeDiff, Nat.reduceBEq,
        reduceIte, reduceDIte, reduceCtorEq,
        lt_self_iff_false, Nat.lt_irrefl, ite_true, ite_false, and_true, true_and,
        and_false, false_and, not_true, not_false_iff, beq_iff_eq, beq_self_eq_true,
        Option.getD_some, Option.getD_none, Option.some.injEq, ne_eq, not_false_eq_true,
        decide_eq_true_eq, Bool.not_true, Bool.not_false, if_true, if_false]
    try rw [dfs_loop]
    try simp only [dfs_step, activate_scc,
        found_scc, found_scc_loop, set_rank, set_parent, get_parent, set_min, set_link, get_min,
        get_rank, get_rank_o, get_link, get_rating, get_vcomp, set_vcomp, set_conflict,
        has_arc, pop_arc, negIdx, varOf, uintMax, Function.update_apply,
        ha0, ha1, ha2, ha3, hd0, hd1, hd2, hd3, hcnt, hact, hstl, hai, har0, har1, hla,
        List.foldl_cons, List.foldl_nil, List.map_cons, List.map_nil,
        getLastD_pair, getLastD_one, dropLast_pair, dropLast_one, isEmpty_nil, isEmpty_cons,
        Nat.reduceAdd, Nat.reduceSub, Nat.reduceMul, Nat.reducePow, Nat.reduceMod,
        Nat.reduceEqDiff, Nat.reduceLT, Nat.reduceLeDiff, Nat.reduceBEq,
        reduceIte, reduceDIte, reduceCtorEq,
        lt_self_iff_false, Nat.lt_irrefl, ite_true, ite_false, and_true, true_and,
        and_false, false_and, not_true, not_false_iff, beq_iff_eq, beq_self_eq_true,
        Option.getD_some, Option.getD_none, Option.some.injEq, ne_eq, not_false_eq_true,
        decide_eq_true_eq, Bool.not_true, Bool.not_false, if_true, if_false]
    try rw [dfs_loop]
    try simp only [dfs_step, activate_scc,
        found_scc, found_scc_loop, set_rank, set_parent, get_parent, set_min, set_link, get_min,
        get_rank, get_rank_o, get_link, get_rating, get_vcomp, set_vcomp, set_conflict,
        has_arc, pop_arc, negIdx, varOf, uintMax, Function.update_apply,
        ha0, ha1, ha2, ha3, hd0, hd1, hd2, hd3, hcnt, hact, hstl, hai, har0, har1, hla,
        List.foldl_cons, List.foldl_nil, List.map_cons, List.map_nil,
        getLastD_pair, getLastD_one, dropLast_pair, dropLast_one, isEmpty_nil, isEmpty_cons,
        Nat.reduceAdd, Nat.reduceSub, Nat.reduceMul, Nat.reducePow, Nat.reduceMod,
        Nat.reduceEqDiff, Nat.reduceLT, Nat.reduceLeDiff, Nat.reduceBEq,
        reduceIte, reduceDIte, reduceCtorEq,
        lt_self_iff_false, Nat.lt_irrefl, ite_true, ite_false, and_true, true_and,
        and_false, false_and, not_true, not_false_iff, beq_iff_eq, beq_self_eq_true,
        Option.getD_some, Option.getD_none, Option.some.injEq, ne_eq, not_false_eq_true,
        decide_eq_true_eq, Bool.not_true, Bool.not_false, if_true, if_false]
    try simp only [dfs_step, activate_scc,
        found_scc, found_scc_loop, set_rank, set_parent, get_parent, set_min, set_link, get_min,
        get_rank, get_rank_o, get_link, get_rating, get_vcomp, set_vcomp, set_conflict,
        has_arc, pop_arc, negIdx, varOf, uintMax, Function.update_apply,
        ha0, ha1, ha2, ha3, hd0, hd1, hd2, hd3, hcnt, hact, hstl, hai, har0, har1, hla,
        List.foldl_cons, List.foldl_nil, List.map_cons, List.map_nil,
        getLastD_pair, getLastD_one, dropLast_pair, dropLast_one, isEmpty_nil, isEmpty_cons,
        Nat.reduceAdd, Nat.reduceSub, Nat.reduceMul, Nat.reducePow, Nat.reduceMod,
        Nat.reduceEqDiff, Nat.reduceLT, Nat.reduceLeDiff, Nat.reduceBEq,
        reduceIte, reduceDIte, reduceCtorEq,
        lt_self_iff_false, Nat.lt_irrefl, ite_true, ite_false, and_true, true_and,
        and_false, false_and, not_true, not_false_iff, beq_iff_eq, beq_self_eq_true,
        Option.getD_some, Option.getD_none, Option.some.injEq, ne_eq, not_false_eq_true,
        decide_eq_true_eq, Bool.not_true, Bool.not_false, if_true, if_false]
    try exact trivial
  obtain ⟨hBinc, hBrank1, hBla⟩ := hf
  simp only [get_scc_main, hA]
  rw [hac]
  simp only [List.map_cons, List.map_nil, get_scc_loop, get_rank, hd0, hd1, hai, hB,
    hBinc, hBrank1, negIdx, Nat.reduceEqDiff, Nat.reduceMod, Nat.reduceSub, Nat.reduceAdd,
    reduceIte, ite_true, ite_false, reduceCtorEq, uintMax, Nat.reducePow]
  first
  | exact trivial
  | exact ⟨hBinc, hBla⟩
  | simp [hBinc, hBla]

theorem c9_scc : (get_scc_main c9S4 48).m_inconsistent = true ∧
    (get_scc_main c9S4 48).m_lookahead = [] := by
  obtain ⟨h1, h2⟩ := scc_probe c9S4 (c9S4.m_rating 0) c9S4_b0 c9S4_b1 c9S4_b2 c9S4_b3
    (by rw [c9S4_cand, c9_rating_eq]) c9S4_id c9S4_inc rfl c9_rating_eq
  exact ⟨h1, by rw [h2, c9S4_la]⟩

theorem c9_pre_select : pre_select c9S2 48 = get_scc_main c9S4 48 := by
  simp only [pre_select, c9_sel, c9_scc.1, if_true, ite_true]

theorem c9_choose : choose 49 c9S2 = (none, get_scc_main c9S4 48) := by
  rw [choose]
  simp only [Nat.reduceEqDiff, reduceIte, Nat.reduceSub, c9_pre_select, c9_scc.2,
    List.isEmpty_nil, if_true, ite_true]

/-- C9: on the CNF (1 2)(-1 -2)(1 -2)(-1 2) over two variables, the search
terminates and reports UNSAT. -/
theorem C9_pigeonhole2_unsat :
    init_search 50 2 [(0,2),(1,3),(0,3),(1,2)] [] [] = some LB.lfalse := by
  have e1 : init_search 50 2 [(0,2),(1,3),(0,3),(1,2)] [] [] = search_loop 50 c9S1 [] := rfl
  rw [e1, search_loop]
  simp only [Nat.reduceEqDiff, reduceIte, Nat.reduceSub, checkpoint]
  rw [show inc_istamp c9S1 = c9S2 from rfl]
  simp only [c9S2_inc, reduceCtorEq, reduceIte, Bool.false_eq_true, if_false, ite_false,
    c9_choose, c9_scc.1, if_true, ite_true]
  rw [backtrack]
  simp only [Nat.reduceEqDiff, reduceIte, c9_scc.1, if_true, ite_true,
    List.getLast?_nil, Bool.false_eq_true, if_false, ite_false]


end Lookahead
